import Mathlib

/-!
Verification development for the predictable-python contract-enforcement
engine.  We give a shallow embedding of the two source modules that carry
the engine's logic:

* contract_util.py - the runtime enforcement engine: the CheckFunctionCalls
  AST visitor, the Return envelope class, and the wrapped closure produced
  by the enforce_contract decorator;
* contract_validator.py - the static contract validator: the ASTVisitor
  class and the verify_contract_schema function (with the key kinds of
  v1_schema.py).

Python machinery is made explicit: exceptions become an Except monad,
the relevant fragment of the Python AST becomes an inductive type, and
the visitor classes become recursive functions over that type.  Real time
in the timed-worker branch is abstracted by giving every embedded function
an abstract duration field; the worker is still alive when the bounded
join of max_runtime_seconds expires exactly when the duration exceeds
that bound.
-/

/-- Python runtime values passed to and returned from governed functions.
Only the shapes the contracts in this repository use are needed. -/
inductive Value where
  | vint (n : Int)
  | vbool (b : Bool)
  | vstr (s : String)
  | vnone
deriving DecidableEq

/-- The distinct ContractException messages raised by contract_util.py,
one constructor per raise site, carrying the data interpolated into the
message.  userRaised models a ContractException raised by governed code
itself (the class is exported, so governed bodies can raise it). -/
inductive Violation where
  | functionNotDeclared (fname : String)
  | callNotAllowed (fname call : String)
  | functionNotSpecified
  | callerNotAllowed (caller fname : String)
  | unableToBind
  | paramNotDeclared (arg : String)
  | paramLoopError (inner : Violation)
  | paramOutOfSpec (param : String)
  | timeConstraint (fname : String)
  | returnMismatch
  | userRaised (msg : String)
deriving DecidableEq

/-- Python exceptions that can flow out of the enforcement engine:
ContractException (carrying a Violation), AttributeError (from reading
a missing attribute such as node.func.id), KeyError (from an unguarded
dict subscript), and arbitrary exceptions of governed code. -/
inductive PyErr where
  | contractExc (v : Violation)
  | attributeError
  | keyError (k : String)
  | userError (tag : String)
deriving DecidableEq

/-- The fragment of the Python expression AST the analyzed sources use.
A call node records its source line (used by the static validator's
violation records), the callee expression and the argument expressions. -/
inductive PyExpr where
  | name (id : String)
  | constE
  | attribute (value : PyExpr) (attr : String)
  | call (lineno : Nat) (func : PyExpr) (args : List PyExpr)

/-- The fragment of the Python statement AST the analyzed sources use.
An importStmt carries the imported names of one import statement, an
importFrom the module of one from-import; functionDef and classDef carry
their decorator list and body. -/
inductive PyStmt where
  | exprStmt (e : PyExpr)
  | assign (value : PyExpr)
  | ret (value : PyExpr)
  | passStmt
  | importStmt (lineno : Nat) (names : List String)
  | importFrom (lineno : Nat) (module : String)
  | functionDef (lineno : Nat) (fname : String) (decorator_list : List PyExpr) (body : List PyStmt)
  | classDef (lineno : Nat) (cname : String) (decorator_list : List PyExpr) (body : List PyStmt)

/-!
CheckFunctionCalls (contract_util.py, lines 10-19).

The class overrides visit_Call only.  ast.NodeVisitor dispatch means:
on a Call node the visitor appends node.func.id and does NOT visit the
node's children (visit_Call never calls generic_visit), so calls nested
inside another call's arguments are not recorded; on every other node
generic_visit recurses into the children in field order.  Reading
node.func.id raises AttributeError whenever node.func is not a Name node
(an Attribute or Call node has no id attribute, and for an Attribute
node the fallback never runs here because there is no fallback in this
visitor).  Errors are modelled in the Except monad.
-/

mutual

/-- Visit of one expression node by CheckFunctionCalls. -/
def ccExpr : PyExpr → Except PyErr (List String)
  | .name _ => .ok []
  | .constE => .ok []
  | .attribute v _ => ccExpr v
  | .call _ f _args =>
    match f with
    | .name id => .ok [id]
    | _ => .error .attributeError

/-- Children of an expression list, visited in order. -/
def ccExprList : List PyExpr → Except PyErr (List String)
  | [] => .ok []
  | e :: es =>
    match ccExpr e with
    | .error err => .error err
    | .ok a =>
      match ccExprList es with
      | .error err => .error err
      | .ok b => .ok (a ++ b)

/-- Visit of one statement node by CheckFunctionCalls (generic_visit:
no statement has a dedicated visitor, so children are visited in the
field order of the corresponding ast node; for functionDef and classDef
the body precedes the decorator list). -/
def ccStmt : PyStmt → Except PyErr (List String)
  | .exprStmt e => ccExpr e
  | .assign v => ccExpr v
  | .ret v => ccExpr v
  | .passStmt => .ok []
  | .importStmt _ _ => .ok []
  | .importFrom _ _ => .ok []
  | .functionDef _ _ dl body =>
    match ccStmtList body with
    | .error err => .error err
    | .ok a =>
      match ccExprList dl with
      | .error err => .error err
      | .ok b => .ok (a ++ b)
  | .classDef _ _ dl body =>
    match ccStmtList body with
    | .error err => .error err
    | .ok a =>
      match ccExprList dl with
      | .error err => .error err
      | .ok b => .ok (a ++ b)

/-- Children of a statement list, visited in order. -/
def ccStmtList : List PyStmt → Except PyErr (List String)
  | [] => .ok []
  | s :: ss =>
    match ccStmt s with
    | .error err => .error err
    | .ok a =>
      match ccStmtList ss with
      | .error err => .error err
      | .ok b => .ok (a ++ b)

end

/-- Per-function section of a contract dictionary (the value stored
under the function's name), as read by the runtime engine.  Parameter
validators and the returns validator are the contract's lambda predicates. -/
structure FunctionSpec where
  params : List (String × (Value → Bool))
  returns : Value → Bool
  allowable_calls : List String
  max_runtime_seconds : ℚ
  allowed_callers : List String

/-- The contract dictionary.  The four global keys become fields; the
per-function entries (the keys of the dict other than the global ones)
become the specs association list, so that the source's membership test
"function_name not in contract" is the specs lookup.  We assume no
governed function shares a name with one of the four global keys. -/
structure Contract where
  raise_on_contract_exception : Bool
  functions : List String
  allowable_imports : List String
  global_allowed_calls : List String
  specs : List (String × FunctionSpec)

/-- A governed Python function: its name, source structure (decorators,
parameters with a has-default flag, body) as inspect.getsource exposes
it, its runtime behavior as a function of the actual arguments, and an
abstract running time used by the timed-worker branch. -/
structure FnDef where
  name : String
  decorator_list : List PyExpr
  params : List (String × Bool)
  body : List PyStmt
  run : List Value → List (String × Value) → Except PyErr Value
  duration : ℚ

/-- inspect.getsource on a decorated function yields the decorated
definition; ast.parse wraps it in a Module whose single statement is the
functionDef, and CheckFunctionCalls.visit walks it (params carry no
call-bearing default expressions in this repository). -/
def extractCalls (fn : FnDef) : Except PyErr (List String) :=
  ccStmt (.functionDef 1 fn.name fn.decorator_list fn.body)

/-- The Return envelope class of contract_util.py: ce is the captured
ContractException (None on success), ret the protected function's return
value (None when absent). -/
structure Ret where
  ce : Option Violation
  ret : Value
deriving DecidableEq

/-- Return.ok: True exactly when no ContractException was captured
(a ContractException instance is always truthy in Python). -/
def Ret.ok (r : Ret) : Bool := r.ce.isNone

/-- Return.exception property. -/
def Ret.exception (r : Ret) : Option Violation := r.ce

/-- Return.returns property. -/
def Ret.returns (r : Ret) : Value := r.ret

/-!
The wrapped closure produced by enforce_contract (contract_util.py,
lines 60-185), one definition per block of the source, composed by
wrappedCore in source order inside the outer try, and by wrapped adding
the except-ContractException handler.
-/

/-- The call-validation loop of wrapped.  Each iteration first tests
"function_name not in contract" (membership among the contract's
per-function keys) and then whether the call is in neither the
function's allowable_calls nor global_allowed_calls. -/
def checkCallsLoop (specs : List (String × FunctionSpec))
    (global_allowed_calls : List String) (fname : String) :
    List String → Except PyErr Unit
  | [] => .ok ()
  | call :: rest =>
    match specs.lookup fname with
    | none => .error (.contractExc (.functionNotDeclared fname))
    | some spec =>
      if !(spec.allowable_calls.contains call)
          && !(global_allowed_calls.contains call) then
        .error (.contractExc (.callNotAllowed fname call))
      else
        checkCallsLoop specs global_allowed_calls fname rest

/-- Binding of the remaining (not positionally bound) parameters against
the keyword arguments, in parameter order; a parameter that is neither
passed nor defaulted makes the bind fail. -/
def bindRest : List (String × Bool) → List (String × Value) →
    Option (List (String × Value))
  | [], _ => some []
  | (n, hasDefault) :: rest, kwargs =>
    match kwargs.lookup n with
    | some v => (bindRest rest kwargs).map (fun tl => (n, v) :: tl)
    | none => if hasDefault then bindRest rest kwargs else none

/-- inspect.signature(fn).bind(args, kwargs): positional arguments bind
to the leading parameters in order, keyword arguments to the remaining
parameters by name; surplus positionals, unknown keyword names and
keywords colliding with a positional binding all fail.  The resulting
arguments mapping lists bound parameters in parameter order and omits
parameters left to their defaults (bind does not apply defaults). -/
def bindArgs (params : List (String × Bool)) (args : List Value)
    (kwargs : List (String × Value)) : Option (List (String × Value)) :=
  if params.length < args.length then none
  else if kwargs.any (fun kv => !((params.map Prod.fst).contains kv.1)) then none
  else if kwargs.any (fun kv =>
      ((params.take args.length).map Prod.fst).contains kv.1) then none
  else
    match bindRest (params.drop args.length) kwargs with
    | none => none
    | some tl => some (((params.map Prod.fst).zip args) ++ tl)

/-- The body of the parameter-declaration loop: the first bound argument
name that is not a key of the contract's params mapping, if any. -/
def firstUndeclaredArg (params : List (String × (Value → Bool))) :
    List (String × Value) → Option String
  | [] => none
  | (arg, _) :: rest =>
    if (params.lookup arg).isNone then some arg
    else firstUndeclaredArg params rest

/-- The parameter-declaration block of wrapped: the loop raises a
ContractException naming the first undeclared argument, and the
enclosing except-Exception handler catches it and re-raises it wrapped
in the outer message (so the delivered violation is paramLoopError). -/
def paramDeclBlock (params : List (String × (Value → Bool)))
    (arguments : List (String × Value)) : Except PyErr Unit :=
  match firstUndeclaredArg params arguments with
  | none => .ok ()
  | some arg => .error (.contractExc (.paramLoopError (.paramNotDeclared arg)))

/-- The parameter-value loop of wrapped: for each declared parameter in
contract order, the unguarded subscript arguments[param] (KeyError when
the parameter was not bound) followed by the validator call. -/
def checkParamValues (arguments : List (String × Value)) :
    List (String × (Value → Bool)) → Except PyErr Unit
  | [] => .ok ()
  | (param, validator) :: rest =>
    match arguments.lookup param with
    | none => .error (.keyError param)
    | some val =>
      if !(validator val) then .error (.contractExc (.paramOutOfSpec param))
      else checkParamValues arguments rest

/-- The execution block of wrapped.  With max_runtime_seconds positive
the function runs in a worker process and the caller joins with that
bound: the worker is still alive after the join exactly when the
function's running time exceeds the bound, in which case it is
terminated and the time-constraint ContractException raised; otherwise
the queued result is read back, a worker exception being re-raised to
the caller.  With a non-positive bound the function runs in-process. -/
def execute (fn : FnDef) (spec : FunctionSpec) (args : List Value)
    (kwargs : List (String × Value)) : Except PyErr Value :=
  if 0 < spec.max_runtime_seconds then
    if spec.max_runtime_seconds < fn.duration then
      .error (.contractExc (.timeConstraint fn.name))
    else
      match fn.run args kwargs with
      | .ok v => .ok v
      | .error e => .error e
  else
    fn.run args kwargs

/-- The body of wrapped's outer try block, in source order: call
extraction, the call-validation loop, the declared-functions check, the
caller check, parameter binding, the parameter-declaration block, the
parameter-value loop, execution, and the return check. -/
def wrappedCore (c : Contract) (fn : FnDef) (caller : String)
    (args : List Value) (kwargs : List (String × Value)) :
    Except PyErr Value :=
  match extractCalls fn with
  | .error e => .error e
  | .ok calls =>
  match checkCallsLoop c.specs c.global_allowed_calls fn.name calls with
  | .error e => .error e
  | .ok () =>
  if !(c.functions.contains fn.name) then
    .error (.contractExc .functionNotSpecified)
  else
  match c.specs.lookup fn.name with
  | none => .error (.keyError fn.name)
  | some spec =>
  if !(spec.allowed_callers.contains caller) then
    .error (.contractExc (.callerNotAllowed caller fn.name))
  else
  match bindArgs fn.params args kwargs with
  | none => .error (.contractExc .unableToBind)
  | some arguments =>
  match paramDeclBlock spec.params arguments with
  | .error e => .error e
  | .ok () =>
  match checkParamValues arguments spec.params with
  | .error e => .error e
  | .ok () =>
  match execute fn spec args kwargs with
  | .error e => .error e
  | .ok ret =>
  if !(spec.returns ret) then .error (.contractExc .returnMismatch)
  else .ok ret

/-- The wrapped closure: the try body, with the except-ContractException
handler that re-raises when raise_on_contract_exception is set and
otherwise downgrades the violation to a Return envelope.  Every other
exception escapes to the caller. -/
def wrapped (c : Contract) (fn : FnDef) (caller : String)
    (args : List Value) (kwargs : List (String × Value)) :
    Except PyErr Ret :=
  match wrappedCore c fn caller args kwargs with
  | .ok ret => .ok ⟨none, ret⟩
  | .error (.contractExc ce) =>
    if c.raise_on_contract_exception then .error (.contractExc ce)
    else .ok ⟨some ce, .vnone⟩
  | .error e => .error e

/-!
ASTVisitor (contract_validator.py, lines 14-160): the static contract
validator.  Its violation collections (call_violation, import_violation,
undeclared_func, undefined_func, undecorated_class, call_graph) are
class-level attributes of ASTVisitor, mutated in place, so they are
shared by every instance; error_count is also a class attribute, but the
augmented assignment creates an instance attribute starting from the
class value 0, so each instance counts from 0.  VState is the tuple of
those attributes; a fresh instance is freshInstance of the current class
state.
-/

/-- The mutable collections and counter of ASTVisitor. -/
structure VState where
  call_violation : List (Nat × String × String)
  import_violation : List (Nat × String)
  undeclared_func : List (Nat × String)
  undefined_func : List String
  undecorated_class : List (Nat × String)
  call_graph : List (String × List (String × Bool))
  error_count : Nat
deriving DecidableEq

/-- The pristine class-level state of ASTVisitor: empty collections. -/
def emptyVState : VState := ⟨[], [], [], [], [], [], 0⟩

/-- Constructing an ASTVisitor instance: the collections alias the
class-level lists (carrying over whatever earlier passes appended),
while error_count effectively restarts from the untouched class value 0. -/
def freshInstance (classState : VState) : VState :=
  { classState with error_count := 0 }

/-- visit_Import: for each alias of the import statement, flag it when
its name is not among allowable_imports. -/
def visitImport (ai : List String) (lineno : Nat) :
    List String → VState → VState
  | [], s => s
  | n :: rest, s =>
    if !(ai.contains n) then
      visitImport ai lineno rest
        { s with error_count := s.error_count + 1,
                 import_violation := s.import_violation ++ [(lineno, n)] }
    else
      visitImport ai lineno rest s

/-- visit_ImportFrom: flag the module when it is not among
allowable_imports. -/
def visitImportFrom (ai : List String) (lineno : Nat) (module : String)
    (s : VState) : VState :=
  if !(ai.contains module) then
    { s with error_count := s.error_count + 1,
             import_violation := s.import_violation ++ [(lineno, module)] }
  else s

/-- The call-name resolution expression of visit_FunctionDef:
cn.func.id when cn.func has an id attribute (a Name node), else
cn.func.value.id, which reads the id of the base of an Attribute node
and raises AttributeError for every other shape (a Call node has no
value attribute; a Constant node's value and an Attribute base that is
itself not a Name have no id attribute). -/
def resolveCalled : PyExpr → Except PyErr String
  | .name id => .ok id
  | .attribute (.name id) _ => .ok id
  | .attribute _ _ => .error .attributeError
  | .constE => .error .attributeError
  | .call _ _ _ => .error .attributeError

/-- Nodes of the walked tree, statements and expressions alike. -/
inductive PyNode where
  | stmt (s : PyStmt)
  | expr (e : PyExpr)

/-- Child nodes in ast field order (for a function or class definition
the body precedes the decorator list; import aliases and parameter
lists carry no walkable children in this fragment). -/
def nodeChildren : PyNode → List PyNode
  | .expr (.name _) => []
  | .expr .constE => []
  | .expr (.attribute v _) => [.expr v]
  | .expr (.call _ f args) => .expr f :: args.map .expr
  | .stmt (.exprStmt e) => [.expr e]
  | .stmt (.assign v) => [.expr v]
  | .stmt (.ret v) => [.expr v]
  | .stmt .passStmt => []
  | .stmt (.importStmt _ _) => []
  | .stmt (.importFrom _ _) => []
  | .stmt (.functionDef _ _ dl body) => body.map .stmt ++ dl.map .expr
  | .stmt (.classDef _ _ dl body) => body.map .stmt ++ dl.map .expr

mutual

/-- Number of AST nodes of an expression. -/
def exprWeight : PyExpr → Nat
  | .name _ => 1
  | .constE => 1
  | .attribute v _ => exprWeight v + 1
  | .call _ f args => exprWeight f + exprListWeight args + 1

/-- Total node count of an expression list. -/
def exprListWeight : List PyExpr → Nat
  | [] => 0
  | e :: es => exprWeight e + exprListWeight es

/-- Number of AST nodes of a statement. -/
def stmtWeight : PyStmt → Nat
  | .exprStmt e => exprWeight e + 1
  | .assign v => exprWeight v + 1
  | .ret v => exprWeight v + 1
  | .passStmt => 1
  | .importStmt _ _ => 1
  | .importFrom _ _ => 1
  | .functionDef _ _ dl body => stmtListWeight body + exprListWeight dl + 1
  | .classDef _ _ dl body => stmtListWeight body + exprListWeight dl + 1

/-- Total node count of a statement list. -/
def stmtListWeight : List PyStmt → Nat
  | [] => 0
  | s :: ss => stmtWeight s + stmtListWeight ss

end

/-- Node count of a walked node. -/
def nodeWeight : PyNode → Nat
  | .stmt s => stmtWeight s
  | .expr e => exprWeight e

/-- ast.walk: breadth-first traversal with a deque, yielding the node
and then extending the queue with its children.  The recursion consumes
one queue element per step, so the total node count of the tree bounds
the number of steps and serves as fuel; the fuel is never exhausted
because every node has weight at least one and a node's children weigh
strictly less than the node. -/
def walkAux : Nat → List PyNode → List PyNode
  | _, [] => []
  | 0, _ :: _ => []
  | fuel + 1, n :: rest => n :: walkAux fuel (rest ++ nodeChildren n)

/-- ast.walk from a single root. -/
def walk (n : PyNode) : List PyNode := walkAux (nodeWeight n) [n]

/-- Initialization of a call_graph key: set to an empty list unless
already present. -/
def ensureKey (g : List (String × List (String × Bool)))
    (k : String) : List (String × List (String × Bool)) :=
  if (g.lookup k).isSome then g else g ++ [(k, [])]

/-- Appending a (called, True) edge to the call_graph entry of fname.
The source guards this append with a membership test of the plain call
name in the list of (name, True) tuples; in Python a string never
equals a tuple, so that guard never fires and the append is
unconditional. -/
def appendEdge (g : List (String × List (String × Bool)))
    (fname called : String) : List (String × List (String × Bool)) :=
  g.map (fun p => if p.1 == fname then (p.1, p.2 ++ [(called, true)]) else p)

/-- The walk loop of visit_FunctionDef: over every node of the
function's subtree, dispatch Import and ImportFrom nodes to their
visitors, and for each Call node resolve the called name and either
record a call violation or extend the call graph. -/
def walkLoop (ai : List String) (allowed : List String) (fname : String) :
    List PyNode → VState → Except PyErr VState
  | [], s => .ok s
  | n :: rest, s =>
    match n with
    | .stmt (.importStmt l names) =>
      walkLoop ai allowed fname rest (visitImport ai l names s)
    | .stmt (.importFrom l m) =>
      walkLoop ai allowed fname rest (visitImportFrom ai l m s)
    | .expr (.call l f _args) =>
      match resolveCalled f with
      | .error e => .error e
      | .ok called =>
        if !(allowed.contains called) then
          walkLoop ai allowed fname rest
            { s with call_violation := s.call_violation ++ [(l, called, fname)],
                     error_count := s.error_count + 1 }
        else
          walkLoop ai allowed fname rest
            { s with call_graph := appendEdge s.call_graph fname called }
    | _ => walkLoop ai allowed fname rest s

/-- visit_FunctionDef: defined names outside the contract's functions
list are recorded as undeclared; for declared names the call-graph key
is initialized, and the KeyError raised when the contract lacks the
per-function entry is caught and recorded as undefined_func (note: this
records a name that IS defined in the module); otherwise the function's
subtree is walked against global_allowed_calls plus its
allowable_calls. -/
def visitFunctionDef (c : Contract) (lineno : Nat) (nm : String)
    (dl : List PyExpr) (body : List PyStmt) (s : VState) :
    Except PyErr VState :=
  if c.functions.contains nm then
    let s1 := { s with call_graph := ensureKey s.call_graph nm }
    match c.specs.lookup nm with
    | none =>
      .ok { s1 with error_count := s1.error_count + 1,
                    undefined_func := s1.undefined_func ++ [nm] }
    | some spec =>
      walkLoop c.allowable_imports
        (c.global_allowed_calls ++ spec.allowable_calls) nm
        (walk (.stmt (.functionDef lineno nm dl body))) s1
  else
    .ok { s with error_count := s.error_count + 1,
                 undeclared_func := s.undeclared_func ++ [(lineno, nm)] }

/-- The decorator-name comprehension of visit_ClassDef: x.func.id for
each decorator, raising AttributeError at the first decorator that is
not a call of a plain name. -/
def decoratorNames : List PyExpr → Except PyErr (List String)
  | [] => .ok []
  | d :: rest =>
    match d with
    | .call _ (.name id) _ =>
      match decoratorNames rest with
      | .error e => .error e
      | .ok tl => .ok (id :: tl)
    | _ => .error .attributeError

/-- visit_ClassDef: record the class as undecorated unless some
decorator is a call of enforce_contract; the class body is not
visited. -/
def visitClassDef (lineno : Nat) (nm : String) (dl : List PyExpr)
    (s : VState) : Except PyErr VState :=
  match decoratorNames dl with
  | .error e => .error e
  | .ok names =>
    if !(names.contains "enforce_contract") then
      .ok { s with error_count := s.error_count + 1,
                   undecorated_class := s.undecorated_class ++ [(lineno, nm)] }
    else .ok s

/-- Dispatch of one top-level module statement by ASTVisitor.visit:
the import statements, function definitions and class definitions have
dedicated visitors; every other statement is generic-visited, and since
the visitor defines no expression handlers that records nothing. -/
def visitTopStmt (c : Contract) (st : PyStmt) (s : VState) :
    Except PyErr VState :=
  match st with
  | .importStmt l names => .ok (visitImport c.allowable_imports l names s)
  | .importFrom l m => .ok (visitImportFrom c.allowable_imports l m s)
  | .functionDef l nm dl body => visitFunctionDef c l nm dl body s
  | .classDef l nm dl _body => visitClassDef l nm dl s
  | _ => .ok s

/-- ASTVisitor.check's visit of the parsed module: the top-level
statements in order. -/
def visitModule (c : Contract) : List PyStmt → VState → Except PyErr VState
  | [], s => .ok s
  | st :: rest, s =>
    match visitTopStmt c st s with
    | .error e => .error e
    | .ok s' => visitModule c rest s'

/-- One static analysis pass (ASTVisitor(contract, file).check()) from a
given starting state of the shared class-level collections. -/
def runPass (c : Contract) (m : List PyStmt) (s : VState) :
    Except PyErr VState :=
  visitModule c m s

/-!
verify_contract_schema (contract_validator.py, lines 173-200) with the
v1_schema.py kind tables.  Contracts here are arbitrary Python dict
values, so we model the Python values that can appear in one, the
isinstance checks of the schema kinds, and the partiality of the
membership and subscript operators on values of the wrong shape (a
TypeError, which is not a ContractValidationException).
-/

/-- Python values a contract dictionary can hold. -/
inductive PyVal where
  | vbool (b : Bool)
  | vint (n : Int)
  | vfloat (q : ℚ)
  | vstr (s : String)
  | vlist (xs : List PyVal)
  | vdict (entries : List (String × PyVal))
  | vcallable
  | vnone

/-- The expected kinds named by v1_schema.py. -/
inductive PyKind where
  | kbool
  | klist
  | kdict
  | kfloat
  | kcallable
deriving DecidableEq

/-- isinstance against a schema kind.  bool instances are exactly the
bools (an int is not a bool, and a bool is not a float: Python's float
does not admit ints or bools), callables are the lambda values. -/
def isinstanceK : PyVal → PyKind → Bool
  | .vbool _, .kbool => true
  | .vlist _, .klist => true
  | .vdict _, .kdict => true
  | .vfloat _, .kfloat => true
  | .vcallable, .kcallable => true
  | _, _ => false

/-- A Python dict with string keys, in insertion order. -/
abbrev PyDict := List (String × PyVal)

/-- Dict subscript and membership by string key. -/
def dictLookup (d : PyDict) (k : String) : Option PyVal := d.lookup k

/-- schema_globals of v1_schema.py, in declaration order. -/
def schema_globals : List (String × PyKind) :=
  [("raise_on_contract_exception", .kbool),
   ("allowable_imports", .klist),
   ("global_allowed_calls", .klist),
   ("functions", .klist)]

/-- schema_functions of v1_schema.py, in declaration order. -/
def schema_functions : List (String × PyKind) :=
  [("params", .kdict),
   ("returns", .kcallable),
   ("allowable_calls", .klist),
   ("max_runtime_seconds", .kfloat),
   ("allowed_callers", .klist)]

/-- Errors of the schema validator: the ContractValidationException
raise sites (one constructor each, carrying the interpolated data), and
the TypeError and KeyError a wrong-shaped value makes the interpreter
raise instead. -/
inductive SchemaErr where
  | globalKeyInvalid (k : String)
  | functionNotDefined (f : PyVal)
  | functionKeyInvalid (fkwn : String)
  | typeError
  | keyErrorS (k : String)

/-- Whether a schema error is a ContractValidationException. -/
def SchemaErr.isCve : SchemaErr → Bool
  | .globalKeyInvalid _ => true
  | .functionNotDefined _ => true
  | .functionKeyInvalid _ => true
  | .typeError => false
  | .keyErrorS _ => false

/-- Substring test on character lists (Python str containment). -/
def charsContain (needle : List Char) : List Char → Bool
  | [] => needle.isEmpty
  | c :: rest => needle.isPrefixOf (c :: rest) || charsContain needle rest

/-- Python membership of a string in an arbitrary value: key membership
in a dict, element equality in a list (a string equals only an equal
string), substring containment in a string, and TypeError on every
non-container. -/
def strMember (needle : String) : PyVal → Except SchemaErr Bool
  | .vdict entries => .ok (entries.lookup needle).isSome
  | .vlist xs =>
    .ok (xs.any (fun x => match x with
      | .vstr t => t == needle
      | _ => false))
  | .vstr hay => .ok (charsContain needle.data hay.data)
  | _ => .error .typeError

/-- Python subscript of an arbitrary value by a string: dict lookup
(KeyError when absent), TypeError on everything else (list and string
indices must be integers). -/
def pySubscript : PyVal → String → Except SchemaErr PyVal
  | .vdict entries, k =>
    match entries.lookup k with
    | some v => .ok v
    | none => .error (.keyErrorS k)
  | _, _ => .error .typeError

/-- The global-keys loop of verify_contract_schema: every schema global
must be a key of the contract with a value of the declared kind. -/
def checkGlobals (d : PyDict) : List (String × PyKind) → Except SchemaErr Unit
  | [] => .ok ()
  | (k, kind) :: rest =>
    match dictLookup d k with
    | none => .error (.globalKeyInvalid k)
    | some v =>
      if !(isinstanceK v kind) then .error (.globalKeyInvalid k)
      else checkGlobals d rest

/-- The per-function-keys loop: for each schema function key, the
membership test on the spec value runs first (TypeError on a
non-container spec), then the subscript and the isinstance check. -/
def checkFunctionKeys (specv : PyVal) :
    List (String × PyKind) → Except SchemaErr Unit
  | [] => .ok ()
  | (fkwn, fkwv) :: rest =>
    match strMember fkwn specv with
    | .error e => .error e
    | .ok false => .error (.functionKeyInvalid fkwn)
    | .ok true =>
      match pySubscript specv fkwn with
      | .error e => .error e
      | .ok v =>
        if !(isinstanceK v fkwv) then .error (.functionKeyInvalid fkwn)
        else checkFunctionKeys specv rest

/-- The declared-functions loop: membership of the declared name among
the contract's keys (an unhashable name - a list or dict - raises
TypeError; a hashable non-string is simply absent since keys are
strings), then the per-function keys of its spec value. -/
def checkFunctionsLoop (d : PyDict) : List PyVal → Except SchemaErr Unit
  | [] => .ok ()
  | f :: rest =>
    match f with
    | .vlist _ => .error .typeError
    | .vdict _ => .error .typeError
    | .vstr s =>
      match dictLookup d s with
      | none => .error (.functionNotDefined (.vstr s))
      | some specv =>
        match checkFunctionKeys specv schema_functions with
        | .error e => .error e
        | .ok () => checkFunctionsLoop d rest
    | _ => .error (.functionNotDefined f)

/-- verify_contract_schema: the global-keys loop, then the loop over
contract["functions"].  After the global loop that value is known to be
a list; the two residual branches carry the exceptions Python would
raise if it were not (they are unreachable). -/
def verify_contract_schema (d : PyDict) : Except SchemaErr Unit :=
  match checkGlobals d schema_globals with
  | .error e => .error e
  | .ok () =>
    match dictLookup d "functions" with
    | some (.vlist fs) => checkFunctionsLoop d fs
    | some _ => .error .typeError
    | none => .error (.keyErrorS "functions")

/-- The skeleton of main (contract_validator.py, lines 203-224): the
schema validation runs at construction time, and on failure the
analysis pass never runs. -/
def mainValidatesFirst (d : PyDict)
    (analysis : Unit → Except PyErr VState) :
    Except SchemaErr (Except PyErr VState) :=
  match verify_contract_schema d with
  | .error e => .error e
  | .ok () => .ok (analysis ())

/-!
Claim-side shape predicates for the schema claim, written from the
specification's words (required keys present with the declared kind;
every declared function with a spec containing every required key with
the declared kind), to be compared with verify_contract_schema.
-/

/-- Spec reading: a required global key is violated when it is absent
or its value is of the wrong kind. -/
def globalKeyBad (d : PyDict) (p : String × PyKind) : Bool :=
  match dictLookup d p.1 with
  | none => true
  | some v => !(isinstanceK v p.2)

/-- Spec reading: a spec lacks a required per-function key (any
non-mapping spec lacks every key) or has it with the wrong kind. -/
def specKeyBad (specv : PyVal) (q : String × PyKind) : Bool :=
  match specv with
  | .vdict entries =>
    match entries.lookup q.1 with
    | none => true
    | some v => !(isinstanceK v q.2)
  | _ => true

/-- Spec reading: a declared function name is violated when no
corresponding spec exists (a non-string name has none, since keys are
strings) or its spec violates some required per-function key. -/
def declaredFunctionBad (d : PyDict) (f : PyVal) : Bool :=
  match f with
  | .vstr s =>
    match dictLookup d s with
    | none => true
    | some specv => schema_functions.any (specKeyBad specv)
  | _ => true

/-- Spec reading of the schema claim's failure condition: some required
global key absent or of the wrong kind, or some declared function name
without a conforming spec. -/
def specSchemaViolated (d : PyDict) : Bool :=
  schema_globals.any (globalKeyBad d) ||
  (match dictLookup d "functions" with
   | some (.vlist fs) => fs.any (declaredFunctionBad d)
   | _ => false)

/-- A declared-function entry that keeps the validator inside dict
operations: the declared name is hashable (not a list or dict), and
when it is a string naming an existing spec, that spec is a mapping. -/
def fnEntryW (d : PyDict) (f : PyVal) : Bool :=
  match f with
  | .vstr s =>
    (match dictLookup d s with
     | some (.vdict _) => true
     | some _ => false
     | none => true)
  | .vlist _ => false
  | .vdict _ => false
  | _ => true

/-- Contracts whose declared-function entries keep the validator inside
dict operations.  Outside this set the validator can hit a TypeError in
place of a ContractValidationException. -/
def wellShapedContract (d : PyDict) : Bool :=
  match dictLookup d "functions" with
  | some (.vlist fs) => fs.all (fnEntryW d)
  | _ => true

/-- Python dict assignment d[k] = v: replace in place when the key
exists, append otherwise. -/
def setK : PyDict → String → PyVal → PyDict
  | [], k, v => [(k, v)]
  | (k', v') :: rest, k, v =>
    if k' == k then (k', v) :: rest else (k', v') :: setK rest k v

/-!
Helper notions used by the theorems below, and the concrete inputs the
counterexamples and witnesses evaluate the embedded code on.
-/

/-- First call of a list allowed by neither the function's
allowable_calls nor the global list. -/
def firstBadCall (spec : FunctionSpec) (gac : List String) :
    List String → Option String
  | [] => none
  | k :: rest =>
    if !(spec.allowable_calls.contains k) && !(gac.contains k) then some k
    else firstBadCall spec gac rest

/-- The import-violation records one visit_Import call appends. -/
def importDelta (ai : List String) (lineno : Nat) (names : List String) :
    List (Nat × String) :=
  (names.filter (fun n => !(ai.contains n))).map (fun n => (lineno, n))

/-- Application of a fixed batch of new violation records, a count
increment and a call-graph transformation to a validator state. -/
def applyDelta (dcv : List (Nat × String × String)) (div : List (Nat × String))
    (dul : List (Nat × String)) (duf : List String) (duc : List (Nat × String))
    (dn : Nat)
    (g : List (String × List (String × Bool)) → List (String × List (String × Bool)))
    (s : VState) : VState :=
  { call_violation := s.call_violation ++ dcv,
    import_violation := s.import_violation ++ div,
    undeclared_func := s.undeclared_func ++ dul,
    undefined_func := s.undefined_func ++ duf,
    undecorated_class := s.undecorated_class ++ duc,
    call_graph := g s.call_graph,
    error_count := s.error_count + dn }

/-- A pure state transformer of the static validator is append-uniform
when, from every start state, it appends the same violation records,
adds the same count and transforms the call graph by a fixed function. -/
def PureUniform (u : VState → VState) : Prop :=
  ∃ dcv div dul duf duc dn g, ∀ s : VState,
    u s = applyDelta dcv div dul duf duc dn g s

/-- A fallible state transformer of the static validator is
append-uniform when it either fails identically from every start state
or appends a fixed batch from every start state.  Every visitor of
ASTVisitor is append-uniform, which is exactly why violations pile up
across passes over the shared class-level lists. -/
def AppendUniform (F : VState → Except PyErr VState) : Prop :=
  (∃ e, ∀ s, F s = .error e) ∨
  (∃ dcv div dul duf duc dn g, ∀ s : VState,
    F s = .ok (applyDelta dcv div dul duf duc dn g s))

/-- A parameter validator accepting everything (the shape of the
lambda x: True specs of the test contracts). -/
def anyValue : Value → Bool := fun _ => true

/-- C1 example: a function with a spec entry but absent from the
functions list, whose body calls a name outside the allowed sets. -/
def c1spec : FunctionSpec := ⟨[], anyValue, [], 0, ["m"]⟩

/-- C1 example contract: declaredFunctions is empty although the spec
entry for f exists. -/
def c1contract : Contract := ⟨true, [], [], ["enforce_contract"], [("f", c1spec)]⟩

/-- C1 example function: the decorated source calls evil and the
decorator; evil is not allowed. -/
def c1fn : FnDef :=
  ⟨"f", [.call 1 (.name "enforce_contract") [.name "contract"]], [],
   [.exprStmt (.call 2 (.name "evil") [])],
   fun _ _ => .ok .vnone, 0⟩

/-- C2 example function: its body calls a method through an attribute
of the object obj. -/
def c2fn : FnDef :=
  ⟨"f", [], [],
   [.exprStmt (.call 2 (.attribute (.name "obj") "method") [])],
   fun _ _ => .ok .vnone, 0⟩

/-- C2 example contract (fail-soft mode, f declared with an empty
allow-list). -/
def c2contract : Contract := ⟨false, ["f"], [], [], [("f", ⟨[], anyValue, [], 0, ["m"]⟩)]⟩

/-- C3 example spec: f is allowed, g2 is not. -/
def c3spec : FunctionSpec := ⟨[], anyValue, ["f"], 0, ["m"]⟩

/-- C3 example contract. -/
def c3contract : Contract := ⟨true, ["g"], [], [], [("g", c3spec)]⟩

/-- C3 example function: the body's only statement calls f with the
call g2() nested as its argument. -/
def c3fn : FnDef :=
  ⟨"g", [], [],
   [.exprStmt (.call 2 (.name "f") [.call 2 (.name "g2") []])],
   fun _ _ => .ok .vnone, 0⟩

/-- C4 example spec: nobody is an allowed caller. -/
def c4spec : FunctionSpec := ⟨[], anyValue, [], 0, []⟩

/-- C4 example contract. -/
def c4contract : Contract := ⟨true, ["f"], [], ["enforce_contract"], [("f", c4spec)]⟩

/-- C4 example function. -/
def c4fn : FnDef :=
  ⟨"f", [.call 1 (.name "enforce_contract") [.name "contract"]], [],
   [.ret .constE], fun _ _ => .ok .vnone, 0⟩

/-- C5 example contract (fail-soft mode). -/
def c5contract : Contract := ⟨false, ["f"], [], [], [("f", ⟨[], anyValue, [], 0, ["m"]⟩)]⟩

/-- C5 example function whose body raises a ContractException of its
own. -/
def c5fn : FnDef :=
  ⟨"f", [], [], [.ret .constE],
   fun _ _ => .error (.contractExc (.userRaised "boom")), 0⟩

/-- C5 witness function whose body raises an ordinary (non-contract)
exception. -/
def c5fnPlain : FnDef :=
  ⟨"f", [], [], [.ret .constE],
   fun _ _ => .error (.userError "boom"), 0⟩

/-- C6 example spec with a two-second budget. -/
def c6spec : FunctionSpec := ⟨[], anyValue, [], 2, ["m"]⟩

/-- C6 example contract. -/
def c6contract : Contract := ⟨true, ["f"], [], [], [("f", c6spec)]⟩

/-- C6 example function completing within the budget. -/
def c6fnFast : FnDef :=
  ⟨"f", [], [], [.ret .constE], fun _ _ => .ok (.vint 42), 1⟩

/-- C6 example function overrunning the budget. -/
def c6fnSlow : FnDef :=
  ⟨"f", [], [], [.ret .constE], fun _ _ => .ok (.vint 42), 3⟩

/-- C10 example spec declaring parameters a and b. -/
def c10spec : FunctionSpec := ⟨[("a", anyValue), ("b", anyValue)], anyValue, [], 0, ["m"]⟩

/-- C10 example contract (fail-soft mode). -/
def c10contract : Contract := ⟨false, ["f"], [], [], [("f", c10spec)]⟩

/-- C10 example function: parameter b has a default the caller omits. -/
def c10fn : FnDef :=
  ⟨"f", [], [("a", false), ("b", true)], [.ret .constE],
   fun _ _ => .ok .vnone, 0⟩

/-- C8 example contract: no imports allowed. -/
def c8contract : Contract := ⟨true, [], [], [], []⟩

/-- C8 example module: one disallowed import. -/
def c8module : List PyStmt := [.importStmt 1 ["os"]]

/-- State of the shared collections after the first C8 pass. -/
def c8state1 : VState := ⟨[], [(1, "os")], [], [], [], [], 1⟩

/-- State of the shared collections after the second C8 pass. -/
def c8state2 : VState := ⟨[], [(1, "os"), (1, "os")], [], [], [], [], 1⟩

/-- C9 example spec. -/
def c9spec : FunctionSpec := ⟨[], anyValue, [], 0, []⟩

/-- C9 example contract: ghost is declared (with a spec) but the module
never defines it. -/
def c9contract : Contract :=
  ⟨true, ["f", "ghost"], [], [], [("f", c9spec), ("ghost", c9spec)]⟩

/-- C9 example module: only f is defined. -/
def c9module : List PyStmt := [.functionDef 1 "f" [] [.passStmt]]

/-- Validator state after analyzing the C9 module: no undefined_func
record for ghost (nor any violation at all). -/
def c9state : VState := ⟨[], [], [], [], [], [("f", [])], 0⟩

/-- C7 counterexample contract: all global keys well-typed, f declared,
but the spec stored under f is the integer 0. -/
def c7badContract : PyDict :=
  [("raise_on_contract_exception", .vbool true),
   ("allowable_imports", .vlist []),
   ("global_allowed_calls", .vlist []),
   ("functions", .vlist [.vstr "f"]),
   ("f", .vint 0)]

/-- A fully schema-conforming spec value. -/
def c7goodSpec : PyVal :=
  .vdict [("params", .vdict []),
          ("returns", .vcallable),
          ("allowable_calls", .vlist []),
          ("max_runtime_seconds", .vfloat 2),
          ("allowed_callers", .vlist [])]

/-- A fully schema-conforming contract. -/
def c7goodContract : PyDict :=
  [("raise_on_contract_exception", .vbool true),
   ("allowable_imports", .vlist []),
   ("global_allowed_calls", .vlist []),
   ("functions", .vlist [.vstr "f"]),
   ("f", c7goodSpec)]

/-- A contract violating the schema in a well-shaped way: the declared
function g has no spec entry. -/
def c7missingSpecContract : PyDict :=
  [("raise_on_contract_exception", .vbool true),
   ("allowable_imports", .vlist []),
   ("global_allowed_calls", .vlist []),
   ("functions", .vlist [.vstr "g"])]

/-!
Shared lemmas about the runtime engine.
-/

/-- The try body of wrapped never reads raise_on_contract_exception:
that switch is consulted only in the exception handler. -/
theorem wrappedCore_flag_invariant (c : Contract) (b : Bool) (fn : FnDef)
    (caller : String) (args : List Value) (kwargs : List (String × Value)) :
    wrappedCore { c with raise_on_contract_exception := b } fn caller args kwargs
      = wrappedCore c fn caller args kwargs := by
  cases c
  rfl

/-- With the spec entry present, the call-validation loop fails exactly
at the first call allowed by neither list. -/
theorem checkCallsLoop_some (specs : List (String × FunctionSpec))
    (gac : List String) (fname : String) (spec : FunctionSpec)
    (h : specs.lookup fname = some spec) :
    ∀ calls, checkCallsLoop specs gac fname calls =
      (match firstBadCall spec gac calls with
       | some k => .error (.contractExc (.callNotAllowed fname k))
       | none => .ok ()) := by
  intro calls
  induction calls with
  | nil => rfl
  | cons k rest ih =>
    simp only [checkCallsLoop, firstBadCall, h]
    by_cases hb : (!spec.allowable_calls.contains k && !gac.contains k) = true
    · rw [if_pos hb, if_pos hb]
    · rw [if_neg hb, if_neg hb, ih]

/-- Without the spec entry, the loop fails at its first iteration with
the not-declared violation. -/
theorem checkCallsLoop_none (specs : List (String × FunctionSpec))
    (gac : List String) (fname : String) (h : specs.lookup fname = none)
    (k : String) (rest : List String) :
    checkCallsLoop specs gac fname (k :: rest)
      = .error (.contractExc (.functionNotDeclared fname)) := by
  simp [checkCallsLoop, h]

/-- Once extraction, the call loop, the declaration check, the caller
check and binding all pass, wrapped's try body reduces to the parameter
checks, execution and return check. -/
theorem wrappedCore_after_bind (c : Contract) (fn : FnDef) (caller : String)
    (args : List Value) (kwargs : List (String × Value)) (calls : List String)
    (spec : FunctionSpec) (arguments : List (String × Value))
    (hex : extractCalls fn = .ok calls)
    (hloop : checkCallsLoop c.specs c.global_allowed_calls fn.name calls = .ok ())
    (hfun : c.functions.contains fn.name = true)
    (hspec : c.specs.lookup fn.name = some spec)
    (hcaller : spec.allowed_callers.contains caller = true)
    (hbind : bindArgs fn.params args kwargs = some arguments) :
    wrappedCore c fn caller args kwargs =
      (match paramDeclBlock spec.params arguments with
       | .error e => .error e
       | .ok () =>
         match checkParamValues arguments spec.params with
         | .error e => .error e
         | .ok () =>
           match execute fn spec args kwargs with
           | .error e => .error e
           | .ok ret =>
             if !(spec.returns ret) then .error (.contractExc .returnMismatch)
             else .ok ret) := by
  simp only [wrappedCore, hex, hloop, hfun, hspec, hcaller, hbind]
  simp

/-- The parameter-value loop hits the unguarded arguments[param] lookup
of the first declared parameter that was not bound, provided every
earlier declared parameter is bound to a value its validator accepts. -/
theorem checkParamValues_keyError (arguments : List (String × Value))
    (p : String) (vp : Value → Bool) (post : List (String × (Value → Bool)))
    (pre : List (String × (Value → Bool)))
    (hpre : ∀ q ∈ pre, ∃ v, arguments.lookup q.1 = some v ∧ q.2 v = true)
    (hmiss : arguments.lookup p = none) :
    checkParamValues arguments (pre ++ (p, vp) :: post) = .error (.keyError p) := by
  induction pre with
  | nil => simp [checkParamValues, hmiss]
  | cons q qs ih =>
    obtain ⟨qn, qp⟩ := q
    obtain ⟨v, hv, hpred⟩ := hpre (qn, qp) (by simp)
    replace hv : List.lookup qn arguments = some v := hv
    replace hpred : qp v = true := hpred
    simp only [List.cons_append, checkParamValues, hv]
    rw [hpred]
    simp only [Bool.not_true, Bool.false_eq_true, if_false]
    exact ih (fun r hr => hpre r (by simp [hr]))

/-- C4: for a fixed invocation, the switch never influences which
violation the try body detects; it only selects between re-raising the
ContractException and downgrading it to a Return envelope with ok False
and the same exception. -/
theorem c4_mode_switch_only_delivery (c : Contract) (fn : FnDef)
    (caller : String) (args : List Value) (kwargs : List (String × Value))
    (b : Bool) (v : Violation) :
    wrappedCore { c with raise_on_contract_exception := b } fn caller args kwargs
      = wrappedCore c fn caller args kwargs
    ∧ (wrappedCore c fn caller args kwargs = .error (.contractExc v) →
        wrapped { c with raise_on_contract_exception := true } fn caller args kwargs
          = .error (.contractExc v)
        ∧ wrapped { c with raise_on_contract_exception := false } fn caller args kwargs
          = .ok ⟨some v, .vnone⟩) := by
  refine ⟨wrappedCore_flag_invariant c b fn caller args kwargs, fun h => ⟨?_, ?_⟩⟩
  · unfold wrapped
    rw [wrappedCore_flag_invariant, h]
    rfl
  · unfold wrapped
    rw [wrappedCore_flag_invariant, h]
    rfl

/-- C4 witness: at the caller-violation example, the detected violation
is the same in both modes, raised in fail-closed mode and wrapped into
the envelope in fail-soft mode. -/
theorem c4_witness :
    wrapped { c4contract with raise_on_contract_exception := true } c4fn "bad" [] []
      = .error (.contractExc (.callerNotAllowed "bad" "f"))
    ∧ wrapped { c4contract with raise_on_contract_exception := false } c4fn "bad" [] []
      = .ok ⟨some (.callerNotAllowed "bad" "f"), .vnone⟩ :=
  (c4_mode_switch_only_delivery c4contract c4fn "bad" [] [] true
    (.callerNotAllowed "bad" "f")).2 rfl

/-- C1 (counterexample): for a target with a spec entry but absent from
declaredFunctions whose body calls a disallowed name, the violation is
CallNotAllowed, not FunctionNotDeclared: the check against the functions
list runs only after the call-graph loop. -/
theorem c1_counterexample :
    wrappedCore c1contract c1fn "m" [] []
      = .error (.contractExc (.callNotAllowed "f" "evil"))
    ∧ c1contract.functions.contains "f" = false
    ∧ (c1contract.specs.lookup "f").isSome = true :=
  ⟨rfl, rfl, rfl⟩

/-- C1 (amended): the engine's first check is the call-validation loop,
inside which each iteration first tests spec-entry presence (raising
FunctionNotDeclared) and then the call itself (raising CallNotAllowed at
the first disallowed call); only after that loop does the engine test
membership in declaredFunctions, raising the not-specified violation;
the remaining checks follow in the claimed order. -/
theorem c1_check_order (c : Contract) (fn : FnDef) (caller : String)
    (args : List Value) (kwargs : List (String × Value)) (calls : List String)
    (hex : extractCalls fn = .ok calls) :
    (c.specs.lookup fn.name = none → calls ≠ [] →
      wrappedCore c fn caller args kwargs
        = .error (.contractExc (.functionNotDeclared fn.name)))
    ∧ (∀ spec k, c.specs.lookup fn.name = some spec →
        firstBadCall spec c.global_allowed_calls calls = some k →
        wrappedCore c fn caller args kwargs
          = .error (.contractExc (.callNotAllowed fn.name k)))
    ∧ (∀ spec, c.specs.lookup fn.name = some spec →
        firstBadCall spec c.global_allowed_calls calls = none →
        c.functions.contains fn.name = false →
        wrappedCore c fn caller args kwargs
          = .error (.contractExc .functionNotSpecified)) := by
  refine ⟨?_, ?_, ?_⟩
  · intro hnone hne
    obtain ⟨k, rest, rfl⟩ : ∃ k rest, calls = k :: rest := by
      cases calls with
      | nil => exact absurd rfl hne
      | cons k rest => exact ⟨k, rest, rfl⟩
    simp only [wrappedCore, hex]
    rw [checkCallsLoop_none _ _ _ hnone]
  · intro spec k hspec hbad
    simp only [wrappedCore, hex]
    rw [checkCallsLoop_some _ _ _ _ hspec, hbad]
  · intro spec hspec hgood hfun
    simp only [wrappedCore, hex]
    rw [checkCallsLoop_some _ _ _ _ hspec, hgood, hfun]
    rfl

/-- C1 witness: the amended order theorem applied at the concrete
example. -/
theorem c1_witness :
    wrappedCore c1contract c1fn "m" [] []
      = .error (.contractExc (.callNotAllowed "f" "evil")) :=
  (c1_check_order c1contract c1fn "m" [] [] ["evil", "enforce_contract"]
    rfl).2.1 c1spec "evil" rfl rfl

/-- C3 (counterexample): the runtime extractor records only the outer
call f of the body statement f(g2()); the nested disallowed call g2 is
absent from the extraction, so the invocation passes all checks. -/
theorem c3_counterexample :
    extractCalls c3fn = .ok ["f"]
    ∧ c3spec.allowable_calls.contains "g2" = false
    ∧ c3contract.global_allowed_calls.contains "g2" = false
    ∧ wrappedCore c3contract c3fn "m" [] [] = .ok .vnone :=
  ⟨rfl, rfl, rfl, rfl⟩

/-- C3 (amended): visit_Call records only the outermost call name of an
expression and never descends into the call's arguments, while calls in
nested statement scopes are still found; consequently a disallowed call
nested as an argument of an allowed call passes the runtime call-graph
check. -/
theorem c3_nested_calls_not_extracted :
    (∀ (l : Nat) (f : String) (args : List PyExpr),
      ccExpr (.call l (.name f) args) = .ok [f])
    ∧ (∀ (l₁ l₂ l₃ : Nat) (n m g : String),
        ccStmt (.functionDef l₁ n []
          [.functionDef l₂ m [] [.exprStmt (.call l₃ (.name g) [])]])
          = .ok [g])
    ∧ (∀ (c : Contract) (fn : FnDef) (spec : FunctionSpec)
        (l l' : Nat) (f g : String) (gargs : List PyExpr),
        fn.decorator_list = [] →
        fn.body = [.exprStmt (.call l (.name f) [.call l' (.name g) gargs])] →
        c.specs.lookup fn.name = some spec →
        spec.allowable_calls.contains f = true →
        extractCalls fn = .ok [f]
        ∧ checkCallsLoop c.specs c.global_allowed_calls fn.name [f] = .ok ()) := by
  refine ⟨fun l f args => rfl, fun l₁ l₂ l₃ n m g => rfl, ?_⟩
  intro c fn spec l l' f g gargs hdec hbody hspec hf
  constructor
  · unfold extractCalls
    rw [hdec, hbody]
    rfl
  · rw [checkCallsLoop_some _ _ _ _ hspec]
    have hmem : f ∈ spec.allowable_calls := by simpa using hf
    simp [firstBadCall, hmem]

/-- C3 witness: the amended theorem applied at the concrete example. -/
theorem c3_witness :
    extractCalls c3fn = .ok ["f"]
    ∧ checkCallsLoop c3contract.specs c3contract.global_allowed_calls
        c3fn.name ["f"] = .ok () :=
  c3_nested_calls_not_extracted.2.2 c3contract c3fn c3spec 2 2 "f" "g2" []
    rfl rfl rfl rfl

/-- C5 (counterexample): a governed body that raises a ContractException
of its own is caught by the engine's handler, and in fail-soft mode it
is converted into a Return envelope instead of propagating. -/
theorem c5_counterexample :
    wrapped c5contract c5fn "m" [] []
      = .ok ⟨some (.userRaised "boom"), .vnone⟩ := rfl

/-- C5 (amended): every exception of the governed body that is not a
ContractException propagates to the caller unchanged in both modes,
from the in-process branch and from the timed worker alike; only an
exception of type ContractException is treated like a violation and
subjected to the switch. -/
theorem c5_noncontract_exceptions_propagate (c : Contract) (fn : FnDef)
    (caller : String) (args : List Value) (kwargs : List (String × Value))
    (calls : List String) (spec : FunctionSpec)
    (arguments : List (String × Value)) (e : PyErr)
    (hex : extractCalls fn = .ok calls)
    (hloop : checkCallsLoop c.specs c.global_allowed_calls fn.name calls = .ok ())
    (hfun : c.functions.contains fn.name = true)
    (hspec : c.specs.lookup fn.name = some spec)
    (hcaller : spec.allowed_callers.contains caller = true)
    (hbind : bindArgs fn.params args kwargs = some arguments)
    (hdecl : paramDeclBlock spec.params arguments = .ok ())
    (hvals : checkParamValues arguments spec.params = .ok ())
    (hexec : execute fn spec args kwargs = .error e)
    (hnot : ∀ v, e ≠ .contractExc v) :
    ∀ b : Bool,
      wrapped { c with raise_on_contract_exception := b } fn caller args kwargs
        = .error e := by
  intro b
  have hcore : wrappedCore c fn caller args kwargs = .error e := by
    rw [wrappedCore_after_bind c fn caller args kwargs calls spec arguments
      hex hloop hfun hspec hcaller hbind, hdecl, hvals, hexec]
  unfold wrapped
  rw [wrappedCore_flag_invariant, hcore]
  cases e with
  | contractExc v => exact absurd rfl (hnot v)
  | attributeError => rfl
  | keyError k => rfl
  | userError t => rfl

/-- C5 witness: an ordinary exception of the governed body escapes
unchanged in both modes. -/
theorem c5_witness :
    wrapped { c5contract with raise_on_contract_exception := false }
        c5fnPlain "m" [] [] = .error (.userError "boom")
    ∧ wrapped { c5contract with raise_on_contract_exception := true }
        c5fnPlain "m" [] [] = .error (.userError "boom") :=
  ⟨c5_noncontract_exceptions_propagate c5contract c5fnPlain "m" [] [] []
      ⟨[], anyValue, [], 0, ["m"]⟩ [] (.userError "boom")
      rfl rfl rfl rfl rfl rfl rfl rfl rfl
      (fun _ h => PyErr.noConfusion h) false,
   c5_noncontract_exceptions_propagate c5contract c5fnPlain "m" [] [] []
      ⟨[], anyValue, [], 0, ["m"]⟩ [] (.userError "boom")
      rfl rfl rfl rfl rfl rfl rfl rfl rfl
      (fun _ h => PyErr.noConfusion h) true⟩

/-- C6: with a positive budget, a worker that finishes within the bound
delivers its true result (subject only to the return check), and a
worker still alive when the bounded join expires is terminated and
yields the time-constraint violation whatever its pending result would
have been: the outcome is independent of the function's run behavior. -/
theorem c6_timeout_behavior (c : Contract) (fn : FnDef) (caller : String)
    (args : List Value) (kwargs : List (String × Value)) (calls : List String)
    (spec : FunctionSpec) (arguments : List (String × Value))
    (hex : extractCalls fn = .ok calls)
    (hloop : checkCallsLoop c.specs c.global_allowed_calls fn.name calls = .ok ())
    (hfun : c.functions.contains fn.name = true)
    (hspec : c.specs.lookup fn.name = some spec)
    (hcaller : spec.allowed_callers.contains caller = true)
    (hbind : bindArgs fn.params args kwargs = some arguments)
    (hdecl : paramDeclBlock spec.params arguments = .ok ())
    (hvals : checkParamValues arguments spec.params = .ok ())
    (hT : 0 < spec.max_runtime_seconds) :
    (fn.duration ≤ spec.max_runtime_seconds →
      ∀ v, fn.run args kwargs = .ok v →
        wrappedCore c fn caller args kwargs
          = (if spec.returns v then .ok v
             else .error (.contractExc .returnMismatch)))
    ∧ (spec.max_runtime_seconds < fn.duration →
        ∀ r, wrappedCore c
            ⟨fn.name, fn.decorator_list, fn.params, fn.body, r, fn.duration⟩
            caller args kwargs
          = .error (.contractExc (.timeConstraint fn.name))) := by
  constructor
  · intro hfast v hrun
    rw [wrappedCore_after_bind c fn caller args kwargs calls spec arguments
      hex hloop hfun hspec hcaller hbind, hdecl, hvals]
    unfold execute
    rw [if_pos hT, if_neg (not_lt.mpr hfast), hrun]
    by_cases hret : spec.returns v = true
    · simp [hret]
    · simp only [Bool.not_eq_true] at hret
      simp [hret]
  · intro hslow r
    rw [wrappedCore_after_bind c
        ⟨fn.name, fn.decorator_list, fn.params, fn.body, r, fn.duration⟩
        caller args kwargs calls spec arguments
        hex hloop hfun hspec hcaller hbind, hdecl, hvals]
    unfold execute
    rw [if_pos hT, if_pos hslow]

/-- C6 witness: at the concrete two-second contract, the fast worker's
result is delivered and the slow worker yields the time-constraint
violation. -/
theorem c6_witness :
    wrappedCore c6contract c6fnFast "m" [] [] = .ok (.vint 42)
    ∧ wrappedCore c6contract c6fnSlow "m" [] []
        = .error (.contractExc (.timeConstraint "f")) :=
  ⟨(c6_timeout_behavior c6contract c6fnFast "m" [] [] [] c6spec []
      rfl rfl rfl rfl rfl rfl rfl rfl (by decide)).1 (by decide) (.vint 42) rfl,
   (c6_timeout_behavior c6contract c6fnSlow "m" [] [] [] c6spec []
      rfl rfl rfl rfl rfl rfl rfl rfl (by decide)).2 (by decide) c6fnSlow.run⟩

/-- C10: when a declared parameter is absent from the bound arguments
(every earlier declared parameter being bound and valid), the
parameter-value loop's unguarded arguments[param] lookup raises a
KeyError, which is not a ContractException and escapes to the caller in
both modes. -/
theorem c10_unguarded_param_lookup (c : Contract) (fn : FnDef)
    (caller : String) (args : List Value) (kwargs : List (String × Value))
    (calls : List String) (spec : FunctionSpec)
    (arguments : List (String × Value)) (p : String) (vp : Value → Bool)
    (pre post : List (String × (Value → Bool)))
    (hex : extractCalls fn = .ok calls)
    (hloop : checkCallsLoop c.specs c.global_allowed_calls fn.name calls = .ok ())
    (hfun : c.functions.contains fn.name = true)
    (hspec : c.specs.lookup fn.name = some spec)
    (hcaller : spec.allowed_callers.contains caller = true)
    (hbind : bindArgs fn.params args kwargs = some arguments)
    (hdecl : paramDeclBlock spec.params arguments = .ok ())
    (hsplit : spec.params = pre ++ (p, vp) :: post)
    (hpre : ∀ q ∈ pre, ∃ v, arguments.lookup q.1 = some v ∧ q.2 v = true)
    (hmiss : arguments.lookup p = none) :
    ∀ b : Bool,
      wrapped { c with raise_on_contract_exception := b } fn caller args kwargs
        = .error (.keyError p) := by
  intro b
  have hcore : wrappedCore c fn caller args kwargs = .error (.keyError p) := by
    rw [wrappedCore_after_bind c fn caller args kwargs calls spec arguments
      hex hloop hfun hspec hcaller hbind, hdecl, hsplit,
      checkParamValues_keyError arguments p vp post pre hpre hmiss]
  unfold wrapped
  rw [wrappedCore_flag_invariant, hcore]

/-- C10 witness: calling the example function without its defaulted
parameter b escapes with KeyError b in both modes. -/
theorem c10_witness :
    wrapped { c10contract with raise_on_contract_exception := false }
        c10fn "m" [.vint 1] [] = .error (.keyError "b")
    ∧ wrapped { c10contract with raise_on_contract_exception := true }
        c10fn "m" [.vint 1] [] = .error (.keyError "b") :=
  ⟨c10_unguarded_param_lookup c10contract c10fn "m" [.vint 1] [] []
      c10spec [("a", .vint 1)] "b" anyValue [("a", anyValue)] []
      rfl rfl rfl rfl rfl rfl rfl rfl
      (fun q hq => by
        simp only [List.mem_singleton] at hq
        subst hq
        exact ⟨.vint 1, rfl, rfl⟩)
      rfl false,
   c10_unguarded_param_lookup c10contract c10fn "m" [.vint 1] [] []
      c10spec [("a", .vint 1)] "b" anyValue [("a", anyValue)] []
      rfl rfl rfl rfl rfl rfl rfl rfl
      (fun q hq => by
        simp only [List.mem_singleton] at hq
        subst hq
        exact ⟨.vint 1, rfl, rfl⟩)
      rfl true⟩

/-- C2 (counterexample): on a body whose only call goes through
attribute access, the runtime extractor does not resolve the base name:
reading node.func.id raises AttributeError, and that error escapes the
engine even in fail-soft mode. -/
theorem c2_counterexample :
    extractCalls c2fn = .error .attributeError
    ∧ wrapped c2contract c2fn "m" [] [] = .error .attributeError :=
  ⟨rfl, rfl⟩

/-- C2 (amended): only the static validator resolves a call through
attribute access to the base object's name and reports it under that
name; the runtime extractor instead raises AttributeError on any call
whose callee is not a plain name. -/
theorem c2_attribute_resolution :
    (∀ (base attr : String), resolveCalled (.attribute (.name base) attr) = .ok base)
    ∧ (∀ (m : String),
        visitFunctionDef c2contract 1 "f" []
          [.exprStmt (.call 5 (.attribute (.name "obj") m) [])]
          (freshInstance emptyVState)
          = .ok ⟨[(5, "obj", "f")], [], [], [], [], [("f", [])], 1⟩)
    ∧ (∀ (l : Nat) (v : PyExpr) (a : String) (args : List PyExpr),
        ccExpr (.call l (.attribute v a) args) = .error .attributeError) := by
  refine ⟨fun base attr => rfl, fun m => rfl, fun l v a args => rfl⟩

/-- C2 witness: the amended theorem applied at a concrete method name. -/
theorem c2_witness :
    resolveCalled (.attribute (.name "obj") "method") = .ok "obj"
    ∧ visitFunctionDef c2contract 1 "f" []
        [.exprStmt (.call 5 (.attribute (.name "obj") "method") [])]
        (freshInstance emptyVState)
        = .ok ⟨[(5, "obj", "f")], [], [], [], [], [("f", [])], 1⟩ :=
  ⟨c2_attribute_resolution.1 "obj" "method",
   c2_attribute_resolution.2.1 "method"⟩

/-- C9: the validator never records an UndefinedFunction for a declared
name with no definition in the module: visit_FunctionDef only fires for
definitions that exist, and its KeyError branch (the only writer of
undefined_func) records module-defined functions whose spec entry is
missing.  At the failing input, the contract declares ghost, the module
does not define it, and the pass ends with no undefined_func record and
a zero total. -/
theorem c9_undefined_function_never_recorded :
    runPass c9contract c9module (freshInstance emptyVState) = .ok c9state
    ∧ c9state.undefined_func = []
    ∧ c9state.error_count = 0
    ∧ c9contract.functions.contains "ghost" = true :=
  ⟨rfl, rfl, rfl, rfl⟩

/-!
Append-uniformity of the static validator's visitors: each visitor
appends records determined by the contract and the analyzed source
alone, independently of whatever the shared collections already hold.
-/

/-- Two delta batches compose into one. -/
theorem applyDelta_comp (dcv₁ div₁ dul₁ duf₁ duc₁ dn₁ g₁ dcv₂ div₂ dul₂ duf₂ duc₂ dn₂ g₂)
    (s : VState) :
    applyDelta dcv₂ div₂ dul₂ duf₂ duc₂ dn₂ g₂
        (applyDelta dcv₁ div₁ dul₁ duf₁ duc₁ dn₁ g₁ s)
      = applyDelta (dcv₁ ++ dcv₂) (div₁ ++ div₂) (dul₁ ++ dul₂)
          (duf₁ ++ duf₂) (duc₁ ++ duc₂) (dn₁ + dn₂) (g₂ ∘ g₁) s := by
  simp [applyDelta, Nat.add_assoc]

/-- The empty delta is the identity. -/
theorem applyDelta_nil (g : List (String × List (String × Bool)) → List (String × List (String × Bool)))
    (hg : ∀ x, g x = x) (s : VState) :
    applyDelta [] [] [] [] [] 0 g s = s := by
  simp [applyDelta, hg]

/-- Append-uniformity only depends on the pointwise behavior. -/
theorem appendUniform_congr (F G : VState → Except PyErr VState)
    (h : ∀ s, F s = G s) (hG : AppendUniform G) : AppendUniform F := by
  cases hG with
  | inl he => exact .inl ⟨he.choose, fun s => (h s).trans (he.choose_spec s)⟩
  | inr hd =>
    obtain ⟨dcv, div, dul, duf, duc, dn, g, hd⟩ := hd
    exact .inr ⟨dcv, div, dul, duf, duc, dn, g, fun s => (h s).trans (hd s)⟩

/-- Precomposing an append-uniform transformer with a pure uniform
update stays append-uniform. -/
theorem appendUniform_precomp (u : VState → VState)
    (F : VState → Except PyErr VState)
    (hu : PureUniform u) (hF : AppendUniform F) :
    AppendUniform (fun s => F (u s)) := by
  obtain ⟨dcv₁, div₁, dul₁, duf₁, duc₁, dn₁, g₁, hu⟩ := hu
  cases hF with
  | inl he =>
    refine .inl ⟨he.choose, fun s => ?_⟩
    show F (u s) = _
    exact he.choose_spec _
  | inr hd =>
    obtain ⟨dcv₂, div₂, dul₂, duf₂, duc₂, dn₂, g₂, hd⟩ := hd
    refine .inr ⟨dcv₁ ++ dcv₂, div₁ ++ div₂, dul₁ ++ dul₂, duf₁ ++ duf₂,
      duc₁ ++ duc₂, dn₁ + dn₂, g₂ ∘ g₁, fun s => ?_⟩
    show F (u s) = _
    rw [hu, hd, applyDelta_comp]

/-- Sequencing two append-uniform transformers stays append-uniform. -/
theorem appendUniform_seq (F G : VState → Except PyErr VState)
    (hF : AppendUniform F) (hG : AppendUniform G) :
    AppendUniform (fun s =>
      match F s with
      | .error e => .error e
      | .ok s' => G s') := by
  cases hF with
  | inl he =>
    refine .inl ⟨he.choose, fun s => ?_⟩
    show (match F s with | Except.error e => Except.error e | Except.ok s' => G s') = _
    rw [he.choose_spec s]
  | inr hd =>
    obtain ⟨dcv₁, div₁, dul₁, duf₁, duc₁, dn₁, g₁, hd⟩ := hd
    cases hG with
    | inl he =>
      refine .inl ⟨he.choose, fun s => ?_⟩
      show (match F s with | Except.error e => Except.error e | Except.ok s' => G s') = _
      rw [hd s]
      exact he.choose_spec _
    | inr hd₂ =>
      obtain ⟨dcv₂, div₂, dul₂, duf₂, duc₂, dn₂, g₂, hd₂⟩ := hd₂
      refine .inr ⟨dcv₁ ++ dcv₂, div₁ ++ div₂, dul₁ ++ dul₂, duf₁ ++ duf₂,
        duc₁ ++ duc₂, dn₁ + dn₂, g₂ ∘ g₁, fun s => ?_⟩
      show (match F s with | Except.error e => Except.error e | Except.ok s' => G s') = _
      rw [hd s]
      show G _ = _
      rw [hd₂, applyDelta_comp]

/-- visit_Import appends exactly the disallowed names of the statement. -/
theorem visitImport_eq (ai : List String) (l : Nat) :
    ∀ (names : List String) (s : VState),
      visitImport ai l names s =
        { s with import_violation := s.import_violation ++ importDelta ai l names,
                 error_count := s.error_count + (importDelta ai l names).length } := by
  intro names
  induction names with
  | nil => intro s; simp [visitImport, importDelta]
  | cons n rest ih =>
    intro s
    simp only [visitImport, importDelta, List.filter_cons]
    by_cases hn : (!ai.contains n) = true
    · rw [if_pos hn, if_pos hn, ih]
      simp [importDelta, List.append_assoc, Nat.add_assoc, Nat.add_comm, Nat.add_left_comm]
    · rw [if_neg hn, if_neg hn, ih]
      simp [importDelta]

/-- visit_Import is pure uniform. -/
theorem visitImport_uniform (ai : List String) (l : Nat) (names : List String) :
    PureUniform (visitImport ai l names) := by
  refine ⟨[], importDelta ai l names, [], [], [], (importDelta ai l names).length,
    id, fun s => ?_⟩
  rw [visitImport_eq]
  simp [applyDelta]

/-- visit_ImportFrom is pure uniform. -/
theorem visitImportFrom_uniform (ai : List String) (l : Nat) (m : String) :
    PureUniform (visitImportFrom ai l m) := by
  by_cases hm : (!ai.contains m) = true
  · have hmem : m ∉ ai := by simpa using hm
    refine ⟨[], [(l, m)], [], [], [], 1, id, fun s => ?_⟩
    simp [visitImportFrom, hmem, applyDelta]
  · have hmem : m ∈ ai := by simpa using hm
    refine ⟨[], [], [], [], [], 0, id, fun s => ?_⟩
    simp [visitImportFrom, hmem, applyDelta]

/-- The walk loop of visit_FunctionDef is append-uniform. -/
theorem walkLoop_uniform (ai allowed : List String) (fname : String) :
    ∀ nodes : List PyNode, AppendUniform (walkLoop ai allowed fname nodes) := by
  intro nodes
  induction nodes with
  | nil =>
    refine .inr ⟨[], [], [], [], [], 0, id, fun s => ?_⟩
    rw [applyDelta_nil id (fun x => rfl)]
    rfl
  | cons n rest ih =>
    match n with
    | .stmt (.importStmt l names) =>
      exact appendUniform_congr _
        (fun s => walkLoop ai allowed fname rest (visitImport ai l names s))
        (fun s => rfl)
        (appendUniform_precomp _ _ (visitImport_uniform ai l names) ih)
    | .stmt (.importFrom l m) =>
      exact appendUniform_congr _
        (fun s => walkLoop ai allowed fname rest (visitImportFrom ai l m s))
        (fun s => rfl)
        (appendUniform_precomp _ _ (visitImportFrom_uniform ai l m) ih)
    | .expr (.call l f args) =>
      match hres : resolveCalled f with
      | .error e =>
        exact .inl ⟨e, fun s => by simp [walkLoop, hres]⟩
      | .ok called =>
        by_cases hc : (!allowed.contains called) = true
        · have hmem : called ∉ allowed := by simpa using hc
          refine appendUniform_congr _
            (fun s => walkLoop ai allowed fname rest
              { s with call_violation := s.call_violation ++ [(l, called, fname)],
                       error_count := s.error_count + 1 })
            (fun s => by simp [walkLoop, hres, hmem]) ?_
          exact appendUniform_precomp
            (fun s => { s with call_violation := s.call_violation ++ [(l, called, fname)],
                               error_count := s.error_count + 1 }) _
            ⟨[(l, called, fname)], [], [], [], [], 1, id, fun s => by simp [applyDelta]⟩ ih
        · have hmem : called ∈ allowed := by simpa using hc
          refine appendUniform_congr _
            (fun s => walkLoop ai allowed fname rest
              { s with call_graph := appendEdge s.call_graph fname called })
            (fun s => by simp [walkLoop, hres, hmem]) ?_
          exact appendUniform_precomp
            (fun s => { s with call_graph := appendEdge s.call_graph fname called }) _
            ⟨[], [], [], [], [], 0, fun gr => appendEdge gr fname called,
              fun s => by simp [applyDelta]⟩ ih
    | .stmt (.exprStmt e) =>
      exact appendUniform_congr _ (walkLoop ai allowed fname rest) (fun s => rfl) ih
    | .stmt (.assign v) =>
      exact appendUniform_congr _ (walkLoop ai allowed fname rest) (fun s => rfl) ih
    | .stmt (.ret v) =>
      exact appendUniform_congr _ (walkLoop ai allowed fname rest) (fun s => rfl) ih
    | .stmt .passStmt =>
      exact appendUniform_congr _ (walkLoop ai allowed fname rest) (fun s => rfl) ih
    | .stmt (.functionDef l nm dl body) =>
      exact appendUniform_congr _ (walkLoop ai allowed fname rest) (fun s => rfl) ih
    | .stmt (.classDef l nm dl body) =>
      exact appendUniform_congr _ (walkLoop ai allowed fname rest) (fun s => rfl) ih
    | .expr (.name id) =>
      exact appendUniform_congr _ (walkLoop ai allowed fname rest) (fun s => rfl) ih
    | .expr .constE =>
      exact appendUniform_congr _ (walkLoop ai allowed fname rest) (fun s => rfl) ih
    | .expr (.attribute v a) =>
      exact appendUniform_congr _ (walkLoop ai allowed fname rest) (fun s => rfl) ih

/-- visit_FunctionDef is append-uniform. -/
theorem visitFunctionDef_uniform (c : Contract) (l : Nat) (nm : String)
    (dl : List PyExpr) (body : List PyStmt) :
    AppendUniform (visitFunctionDef c l nm dl body) := by
  by_cases hnm : c.functions.contains nm = true
  · have hmem : nm ∈ c.functions := by simpa using hnm
    match hsp : c.specs.lookup nm with
    | none =>
      refine .inr ⟨[], [], [], [nm], [], 1, fun gr => ensureKey gr nm, fun s => ?_⟩
      simp [visitFunctionDef, hmem, hsp, applyDelta]
    | some spec =>
      refine appendUniform_congr _
        (fun s => walkLoop c.allowable_imports
          (c.global_allowed_calls ++ spec.allowable_calls) nm
          (walk (.stmt (.functionDef l nm dl body)))
          { s with call_graph := ensureKey s.call_graph nm })
        (fun s => by simp [visitFunctionDef, hmem, hsp]) ?_
      exact appendUniform_precomp
        (fun s => { s with call_graph := ensureKey s.call_graph nm }) _
        ⟨[], [], [], [], [], 0, fun gr => ensureKey gr nm,
          fun s => by simp [applyDelta]⟩
        (walkLoop_uniform _ _ _ _)
  · have hmem : nm ∉ c.functions := by simpa using hnm
    refine .inr ⟨[], [], [(l, nm)], [], [], 1, id, fun s => ?_⟩
    simp [visitFunctionDef, hmem, applyDelta]

/-- visit_ClassDef is append-uniform. -/
theorem visitClassDef_uniform (l : Nat) (nm : String) (dl : List PyExpr) :
    AppendUniform (visitClassDef l nm dl) := by
  match hd : decoratorNames dl with
  | .error e => exact .inl ⟨e, fun s => by simp [visitClassDef, hd]⟩
  | .ok names =>
    by_cases hn : (!names.contains "enforce_contract") = true
    · have hmem : "enforce_contract" ∉ names := by simpa using hn
      refine .inr ⟨[], [], [], [], [(l, nm)], 1, id, fun s => ?_⟩
      simp [visitClassDef, hd, hmem, applyDelta]
    · have hmem : "enforce_contract" ∈ names := by simpa using hn
      refine .inr ⟨[], [], [], [], [], 0, id, fun s => ?_⟩
      simp [visitClassDef, hd, hmem, applyDelta]

/-- Every top-level dispatch of the visitor is append-uniform. -/
theorem visitTopStmt_uniform (c : Contract) (st : PyStmt) :
    AppendUniform (visitTopStmt c st) := by
  match st with
  | .importStmt l names =>
    obtain ⟨dcv, div, dul, duf, duc, dn, g, hu⟩ := visitImport_uniform c.allowable_imports l names
    exact .inr ⟨dcv, div, dul, duf, duc, dn, g, fun s => by
      simp only [visitTopStmt]
      rw [hu]⟩
  | .importFrom l m =>
    obtain ⟨dcv, div, dul, duf, duc, dn, g, hu⟩ := visitImportFrom_uniform c.allowable_imports l m
    exact .inr ⟨dcv, div, dul, duf, duc, dn, g, fun s => by
      simp only [visitTopStmt]
      rw [hu]⟩
  | .functionDef l nm dl body =>
    exact appendUniform_congr _ (visitFunctionDef c l nm dl body) (fun s => rfl)
      (visitFunctionDef_uniform c l nm dl body)
  | .classDef l nm dl body =>
    exact appendUniform_congr _ (visitClassDef l nm dl) (fun s => rfl)
      (visitClassDef_uniform l nm dl)
  | .exprStmt e =>
    exact .inr ⟨[], [], [], [], [], 0, id, fun s => by
      rw [applyDelta_nil id (fun x => rfl)]; rfl⟩
  | .assign v =>
    exact .inr ⟨[], [], [], [], [], 0, id, fun s => by
      rw [applyDelta_nil id (fun x => rfl)]; rfl⟩
  | .ret v =>
    exact .inr ⟨[], [], [], [], [], 0, id, fun s => by
      rw [applyDelta_nil id (fun x => rfl)]; rfl⟩
  | .passStmt =>
    exact .inr ⟨[], [], [], [], [], 0, id, fun s => by
      rw [applyDelta_nil id (fun x => rfl)]; rfl⟩

/-- A whole analysis pass is append-uniform: the records it appends and
the count it adds are a pure function of the contract and the module
source, whatever the shared collections already hold. -/
theorem runPass_uniform (c : Contract) (m : List PyStmt) :
    AppendUniform (runPass c m) := by
  induction m with
  | nil =>
    refine .inr ⟨[], [], [], [], [], 0, id, fun s => ?_⟩
    rw [applyDelta_nil id (fun x => rfl)]
    rfl
  | cons st rest ih =>
    exact appendUniform_congr _
      (fun s =>
        match visitTopStmt c st s with
        | .error e => .error e
        | .ok s' => runPass c rest s')
      (fun s => rfl)
      (appendUniform_seq _ _ (visitTopStmt_uniform c st) ih)

/-- C8 (counterexample): two analysis passes over the same source with
the same contract do not yield identical violation collections, because
the collections are class-level shared state: the second pass's
list of import violations carries both passes' records. -/
theorem c8_counterexample :
    runPass c8contract c8module (freshInstance emptyVState) = .ok c8state1
    ∧ runPass c8contract c8module (freshInstance c8state1) = .ok c8state2
    ∧ c8state2.import_violation ≠ c8state1.import_violation
    ∧ c8state2.error_count = c8state1.error_count :=
  ⟨rfl, rfl, by decide, rfl⟩

/-- C8 (amended): analysis is deterministic - the records a pass
appends and the count it adds are a pure function of contract and
source, identical across passes - and error_count is effectively fresh
per instance; but the ViolationRecord collections are shared class
state, so a later pass's collections extend the earlier pass's records
instead of being fresh. -/
theorem c8_shared_collections (c : Contract) (m : List PyStmt)
    (s s' e' : VState)
    (h1 : runPass c m (freshInstance s) = .ok s')
    (h2 : runPass c m (freshInstance emptyVState) = .ok e') :
    s'.call_violation = s.call_violation ++ e'.call_violation
    ∧ s'.import_violation = s.import_violation ++ e'.import_violation
    ∧ s'.undeclared_func = s.undeclared_func ++ e'.undeclared_func
    ∧ s'.undefined_func = s.undefined_func ++ e'.undefined_func
    ∧ s'.undecorated_class = s.undecorated_class ++ e'.undecorated_class
    ∧ s'.error_count = e'.error_count := by
  cases runPass_uniform c m with
  | inl he =>
    rw [he.choose_spec (freshInstance s)] at h1
    exact absurd h1 (by simp)
  | inr hd =>
    obtain ⟨dcv, div, dul, duf, duc, dn, g, hd⟩ := hd
    rw [hd (freshInstance s)] at h1
    rw [hd (freshInstance emptyVState)] at h2
    injection h1 with h1
    injection h2 with h2
    subst h1
    subst h2
    simp [applyDelta, freshInstance, emptyVState]

/-- C8 witness: the append theorem applied at the two concrete passes
of the counterexample module. -/
theorem c8_witness :
    c8state2.call_violation = c8state1.call_violation ++ c8state1.call_violation
    ∧ c8state2.import_violation = c8state1.import_violation ++ c8state1.import_violation
    ∧ c8state2.undeclared_func = c8state1.undeclared_func ++ c8state1.undeclared_func
    ∧ c8state2.undefined_func = c8state1.undefined_func ++ c8state1.undefined_func
    ∧ c8state2.undecorated_class = c8state1.undecorated_class ++ c8state1.undecorated_class
    ∧ c8state2.error_count = c8state1.error_count :=
  c8_shared_collections c8contract c8module c8state1 c8state2 c8state1 rfl rfl

/-!
Lemmas about the schema validator.
-/

/-- Dict assignment then lookup of the same key. -/
theorem lookup_setK_self (d : PyDict) (k : String) (v : PyVal) :
    (setK d k v).lookup k = some v := by
  induction d with
  | nil => simp [setK]
  | cons p rest ih =>
    obtain ⟨k', v'⟩ := p
    by_cases h : k' = k
    · subst h
      simp [setK]
    · have h1 : (k' == k) = false := by simp [h]
      have h2 : (k == k') = false := by simp [Ne.symm h]
      simp [setK, h1, List.lookup, h2, ih]

/-- Dict assignment then lookup of another key. -/
theorem lookup_setK_ne (d : PyDict) (k : String) (v : PyVal) (k' : String)
    (h : k' ≠ k) : (setK d k v).lookup k' = d.lookup k' := by
  induction d with
  | nil => simp [setK, List.lookup, show (k' == k) = false by simp [h]]
  | cons p rest ih =>
    obtain ⟨k₀, v₀⟩ := p
    by_cases h0 : k₀ = k
    · subst h0
      have h2 : (k' == k₀) = false := by simp [h]
      simp [setK, List.lookup, h2]
    · have h1 : (k₀ == k) = false := by simp [h0]
      by_cases h3 : k' = k₀
      · subst h3
        simp [setK, h1, List.lookup]
      · have h4 : (k' == k₀) = false := by simp [h3]
        simp [setK, h1, List.lookup, h4, ih]

/-- isinstance on a bool value depends only on the kind, not the bool. -/
theorem isinstanceK_vbool (b b' : Bool) (kind : PyKind) :
    isinstanceK (.vbool b) kind = isinstanceK (.vbool b') kind := by
  cases kind <;> rfl

/-- The global-keys loop never looks at the value stored under the
raise flag beyond its kind. -/
theorem checkGlobals_flag (d : PyDict) (b b' : Bool) :
    ∀ gs, checkGlobals (setK d "raise_on_contract_exception" (.vbool b)) gs
      = checkGlobals (setK d "raise_on_contract_exception" (.vbool b')) gs := by
  intro gs
  induction gs with
  | nil => rfl
  | cons p rest ih =>
    obtain ⟨k, kind⟩ := p
    by_cases hk : k = "raise_on_contract_exception"
    · subst hk
      simp only [checkGlobals, dictLookup, lookup_setK_self]
      rw [isinstanceK_vbool b b' kind]
      by_cases hins : (!isinstanceK (.vbool b') kind) = true
      · rw [if_pos hins, if_pos hins]
      · rw [if_neg hins, if_neg hins, ih]
    · simp only [checkGlobals, dictLookup, lookup_setK_ne _ _ _ _ hk]
      cases hv : List.lookup k d with
      | none => rfl
      | some v =>
        dsimp only
        by_cases hins : (!isinstanceK v kind) = true
        · rw [if_pos hins, if_pos hins]
        · rw [if_neg hins, if_neg hins, ih]

/-- A bool stored as a spec makes the per-function key loop raise
TypeError at its first key, whatever the bool. -/
theorem checkFunctionKeys_vbool (b : Bool) :
    checkFunctionKeys (.vbool b) schema_functions = .error .typeError := rfl

/-- The declared-functions loop never looks at the value stored under
the raise flag beyond its kind. -/
theorem checkFunctionsLoop_flag (d : PyDict) (b b' : Bool) :
    ∀ fs, checkFunctionsLoop (setK d "raise_on_contract_exception" (.vbool b)) fs
      = checkFunctionsLoop (setK d "raise_on_contract_exception" (.vbool b')) fs := by
  intro fs
  induction fs with
  | nil => rfl
  | cons f rest ih =>
    match f with
    | .vlist xs => rfl
    | .vdict es => rfl
    | .vbool x => simp [checkFunctionsLoop]
    | .vint n => simp [checkFunctionsLoop]
    | .vfloat q => simp [checkFunctionsLoop]
    | .vcallable => simp [checkFunctionsLoop]
    | .vnone => simp [checkFunctionsLoop]
    | .vstr s =>
      by_cases hs : s = "raise_on_contract_exception"
      · subst hs
        simp only [checkFunctionsLoop, dictLookup, lookup_setK_self,
          checkFunctionKeys_vbool]
      · simp only [checkFunctionsLoop, dictLookup, lookup_setK_ne _ _ _ _ hs]
        cases hv : List.lookup s d with
        | none => rfl
        | some specv =>
          dsimp only
          cases hck : checkFunctionKeys specv schema_functions with
          | error e => rfl
          | ok u =>
            cases u
            exact ih

/-- The schema validator never reads the stored raise flag beyond its
kind: replacing its bool value changes nothing. -/
theorem verify_flag_invariant (d : PyDict) (b b' : Bool) :
    verify_contract_schema (setK d "raise_on_contract_exception" (.vbool b))
      = verify_contract_schema (setK d "raise_on_contract_exception" (.vbool b')) := by
  unfold verify_contract_schema
  rw [checkGlobals_flag d b b' schema_globals]
  cases hg : checkGlobals (setK d "raise_on_contract_exception" (.vbool b')) schema_globals with
  | error e => rfl
  | ok u =>
    cases u
    have hne : ("functions" : String) ≠ "raise_on_contract_exception" := by decide
    simp only [dictLookup, lookup_setK_ne _ _ _ _ hne]
    cases hv : List.lookup "functions" d with
    | none => rfl
    | some v =>
      cases v with
      | vlist fs => exact checkFunctionsLoop_flag d b b' fs
      | vbool x => rfl
      | vint n => rfl
      | vfloat q => rfl
      | vstr s => rfl
      | vdict es => rfl
      | vcallable => rfl
      | vnone => rfl

/-- The global-keys loop succeeds exactly when no required global key
is absent or of the wrong kind. -/
theorem checkGlobals_ok_iff (d : PyDict) :
    ∀ gs, (checkGlobals d gs = .ok ()
      ↔ gs.all (fun p => !(globalKeyBad d p)) = true) := by
  intro gs
  induction gs with
  | nil => simp [checkGlobals]
  | cons p rest ih =>
    obtain ⟨k, kind⟩ := p
    simp only [checkGlobals, dictLookup, List.all_cons, Bool.and_eq_true]
    cases hv : List.lookup k d with
    | none =>
      simp [globalKeyBad, dictLookup, hv]
    | some v =>
      by_cases hins : (!isinstanceK v kind) = true
      · simp [globalKeyBad, dictLookup, hv, hins]
      · have hins' : isinstanceK v kind = true := by simpa using hins
        simp [globalKeyBad, dictLookup, hv, hins', ih]

/-- The only failure the global-keys loop can raise is the
ContractValidationException naming the offending key. -/
theorem checkGlobals_error (d : PyDict) :
    ∀ gs e, checkGlobals d gs = .error e → ∃ k, e = .globalKeyInvalid k := by
  intro gs
  induction gs with
  | nil => intro e h; exact absurd h (by simp [checkGlobals])
  | cons p rest ih =>
    obtain ⟨k, kind⟩ := p
    intro e h
    simp only [checkGlobals, dictLookup] at h
    cases hv : List.lookup k d with
    | none =>
      rw [hv] at h
      dsimp only at h
      injection h with h
      exact ⟨k, h.symm⟩
    | some v =>
      rw [hv] at h
      dsimp only at h
      by_cases hins : (!isinstanceK v kind) = true
      · rw [if_pos hins] at h
        injection h with h
        exact ⟨k, h.symm⟩
      · rw [if_neg hins] at h
        exact ih e h

/-- On a mapping spec, the per-function key loop succeeds exactly when
no required key is absent or of the wrong kind. -/
theorem checkFunctionKeys_dict_ok_iff (es : List (String × PyVal)) :
    ∀ qs, (checkFunctionKeys (.vdict es) qs = .ok ()
      ↔ qs.all (fun q => !(specKeyBad (.vdict es) q)) = true) := by
  intro qs
  induction qs with
  | nil => simp [checkFunctionKeys]
  | cons q rest ih =>
    obtain ⟨fkwn, fkwv⟩ := q
    simp only [checkFunctionKeys, strMember, List.all_cons, Bool.and_eq_true]
    cases hlk : List.lookup fkwn es with
    | none =>
      simp [specKeyBad, hlk]
    | some v =>
      by_cases hins : (!isinstanceK v fkwv) = true
      · simp [pySubscript, specKeyBad, hlk, hins]
      · have hins' : isinstanceK v fkwv = true := by simpa using hins
        simp [pySubscript, specKeyBad, hlk, hins', ih]

/-- On a mapping spec, the only failure of the per-function key loop is
the ContractValidationException naming the offending key. -/
theorem checkFunctionKeys_dict_error (es : List (String × PyVal)) :
    ∀ qs e, checkFunctionKeys (.vdict es) qs = .error e →
      ∃ k, e = .functionKeyInvalid k := by
  intro qs
  induction qs with
  | nil => intro e h; exact absurd h (by simp [checkFunctionKeys])
  | cons q rest ih =>
    obtain ⟨fkwn, fkwv⟩ := q
    intro e h
    simp only [checkFunctionKeys, strMember] at h
    cases hlk : List.lookup fkwn es with
    | none =>
      rw [hlk] at h
      simp only [Option.isSome_none] at h
      injection h with h
      exact ⟨fkwn, h.symm⟩
    | some v =>
      rw [hlk] at h
      simp only [Option.isSome_some, pySubscript, hlk] at h
      by_cases hins : (!isinstanceK v fkwv) = true
      · rw [if_pos hins] at h
        injection h with h
        exact ⟨fkwn, h.symm⟩
      · rw [if_neg hins] at h
        exact ih e h

/-- A value that isinstance accepts as a list is a list. -/
theorem isinstanceK_klist (v : PyVal) (h : isinstanceK v .klist = true) :
    ∃ xs, v = .vlist xs := by
  cases v with
  | vlist xs => exact ⟨xs, rfl⟩
  | vbool b => exact absurd h (by simp [isinstanceK])
  | vint n => exact absurd h (by simp [isinstanceK])
  | vfloat q => exact absurd h (by simp [isinstanceK])
  | vstr s => exact absurd h (by simp [isinstanceK])
  | vdict es => exact absurd h (by simp [isinstanceK])
  | vcallable => exact absurd h (by simp [isinstanceK])
  | vnone => exact absurd h (by simp [isinstanceK])

/-- After a successful global-keys check, the functions entry is a
list. -/
theorem functions_is_vlist (d : PyDict)
    (h : checkGlobals d schema_globals = .ok ()) :
    ∃ fs, List.lookup "functions" d = some (.vlist fs) := by
  rw [checkGlobals_ok_iff] at h
  simp only [schema_globals, List.all_cons, List.all_nil, Bool.and_eq_true,
    Bool.and_true] at h
  obtain ⟨-, -, -, h4⟩ := h
  simp only [globalKeyBad, dictLookup, Bool.not_eq_true'] at h4
  cases hv : List.lookup "functions" d with
  | none => rw [hv] at h4; exact absurd h4 (by simp)
  | some v =>
    rw [hv] at h4
    obtain ⟨xs, rfl⟩ := isinstanceK_klist v (by simpa using h4)
    exact ⟨xs, rfl⟩

/-- On well-shaped declared-function entries, the declared-functions
loop succeeds exactly when every declared name has a conforming spec. -/
theorem checkFunctionsLoop_ok_iff (d : PyDict) :
    ∀ fs, fs.all (fnEntryW d) = true →
      (checkFunctionsLoop d fs = .ok ()
        ↔ fs.all (fun f => !(declaredFunctionBad d f)) = true) := by
  intro fs
  induction fs with
  | nil => simp [checkFunctionsLoop]
  | cons f rest ih =>
    intro hall
    simp only [List.all_cons, Bool.and_eq_true] at hall
    obtain ⟨hf, hrest⟩ := hall
    match f with
    | .vlist xs => exact absurd hf (by simp [fnEntryW])
    | .vdict es => exact absurd hf (by simp [fnEntryW])
    | .vbool x => simp [checkFunctionsLoop, declaredFunctionBad]
    | .vint n => simp [checkFunctionsLoop, declaredFunctionBad]
    | .vfloat q => simp [checkFunctionsLoop, declaredFunctionBad]
    | .vcallable => simp [checkFunctionsLoop, declaredFunctionBad]
    | .vnone => simp [checkFunctionsLoop, declaredFunctionBad]
    | .vstr s =>
      simp only [checkFunctionsLoop, dictLookup]
      cases hv : List.lookup s d with
      | none =>
        simp [declaredFunctionBad, dictLookup, hv]
      | some specv =>
        have hdict : ∃ es, specv = .vdict es := by
          simp only [fnEntryW, dictLookup, hv] at hf
          cases specv with
          | vdict es => exact ⟨es, rfl⟩
          | vbool x => exact absurd hf (by simp)
          | vint n => exact absurd hf (by simp)
          | vfloat q => exact absurd hf (by simp)
          | vstr t => exact absurd hf (by simp)
          | vlist xs => exact absurd hf (by simp)
          | vcallable => exact absurd hf (by simp)
          | vnone => exact absurd hf (by simp)
        obtain ⟨es, rfl⟩ := hdict
        cases hck : checkFunctionKeys (.vdict es) schema_functions with
        | error e =>
          have hbad : schema_functions.any (specKeyBad (.vdict es)) = true := by
            cases hany : schema_functions.any (specKeyBad (.vdict es)) with
            | true => rfl
            | false =>
              rw [List.any_eq_false] at hany
              have hok : checkFunctionKeys (.vdict es) schema_functions = .ok () := by
                rw [checkFunctionKeys_dict_ok_iff]
                simp only [List.all_eq_true, Bool.not_eq_true']
                intro q hq
                simpa using hany q hq
              exact absurd (hok.symm.trans hck) (by simp)
          simp [declaredFunctionBad, dictLookup, hv, hbad, hck]
        | ok u =>
          cases u
          have hgood : schema_functions.any (specKeyBad (.vdict es)) = false := by
            have hiff := (checkFunctionKeys_dict_ok_iff es schema_functions).mp hck
            simp only [List.all_eq_true, Bool.not_eq_true'] at hiff
            rw [List.any_eq_false]
            intro q hq
            simpa using hiff q hq
          simp [declaredFunctionBad, dictLookup, hv, hgood, hck, ih hrest]

/-- On well-shaped declared-function entries, every failure of the
declared-functions loop is a ContractValidationException. -/
theorem checkFunctionsLoop_error (d : PyDict) :
    ∀ fs e, fs.all (fnEntryW d) = true →
      checkFunctionsLoop d fs = .error e → e.isCve = true := by
  intro fs
  induction fs with
  | nil => intro e _ h; exact absurd h (by simp [checkFunctionsLoop])
  | cons f rest ih =>
    intro e hall h
    simp only [List.all_cons, Bool.and_eq_true] at hall
    obtain ⟨hf, hrest⟩ := hall
    match f with
    | .vlist xs => exact absurd hf (by simp [fnEntryW])
    | .vdict es => exact absurd hf (by simp [fnEntryW])
    | .vbool x =>
      simp only [checkFunctionsLoop] at h
      injection h with h
      rw [← h]
      rfl
    | .vint n =>
      simp only [checkFunctionsLoop] at h
      injection h with h
      rw [← h]
      rfl
    | .vfloat q =>
      simp only [checkFunctionsLoop] at h
      injection h with h
      rw [← h]
      rfl
    | .vcallable =>
      simp only [checkFunctionsLoop] at h
      injection h with h
      rw [← h]
      rfl
    | .vnone =>
      simp only [checkFunctionsLoop] at h
      injection h with h
      rw [← h]
      rfl
    | .vstr s =>
      simp only [checkFunctionsLoop, dictLookup] at h
      cases hv : List.lookup s d with
      | none =>
        rw [hv] at h
        dsimp only at h
        injection h with h
        rw [← h]
        rfl
      | some specv =>
        rw [hv] at h
        dsimp only at h
        have hdict : ∃ es, specv = .vdict es := by
          simp only [fnEntryW, dictLookup, hv] at hf
          cases specv with
          | vdict es => exact ⟨es, rfl⟩
          | vbool x => exact absurd hf (by simp)
          | vint n => exact absurd hf (by simp)
          | vfloat q => exact absurd hf (by simp)
          | vstr t => exact absurd hf (by simp)
          | vlist xs => exact absurd hf (by simp)
          | vcallable => exact absurd hf (by simp)
          | vnone => exact absurd hf (by simp)
        obtain ⟨es, rfl⟩ := hdict
        cases hck : checkFunctionKeys (.vdict es) schema_functions with
        | error e0 =>
          rw [hck] at h
          dsimp only at h
          injection h with h
          obtain ⟨k, rfl⟩ := checkFunctionKeys_dict_error es schema_functions e0 hck
          rw [← h]
          rfl
        | ok u =>
          cases u
          rw [hck] at h
          dsimp only at h
          exact ih e hrest h

/-- C7 (counterexample): on a contract whose global keys are all
well-typed but whose spec for the declared function f is the integer 0,
the validator raises a TypeError (from the membership test on a
non-container), not a ContractValidationException, although the claim's
condition holds (the spec lacks every required key). -/
theorem c7_counterexample :
    verify_contract_schema c7badContract = .error .typeError
    ∧ SchemaErr.typeError.isCve = false
    ∧ specSchemaViolated c7badContract = true :=
  ⟨rfl, rfl, rfl⟩

/-- C7 (amended): on contracts whose declared-function entries are
hashable and whose existing specs are mappings, schema validation
succeeds exactly when no required global key is absent or wrongly
kinded, every declared name has a spec, and every spec has every
required per-function key with the right kind; every failure it raises
is a ContractValidationException; the validation runs before the
analysis pass, which never runs on failure; and its outcome never
depends on the value of the raise flag. -/
theorem c7_schema_validation (d : PyDict) (hw : wellShapedContract d = true) :
    (verify_contract_schema d = .ok () ↔ specSchemaViolated d = false)
    ∧ (∀ e, verify_contract_schema d = .error e → e.isCve = true)
    ∧ (∀ (analysis : Unit → Except PyErr VState) (e : SchemaErr),
        verify_contract_schema d = .error e →
        mainValidatesFirst d analysis = .error e)
    ∧ (∀ b b', verify_contract_schema (setK d "raise_on_contract_exception" (.vbool b))
        = verify_contract_schema (setK d "raise_on_contract_exception" (.vbool b'))) := by
  have main : (verify_contract_schema d = .ok () ↔ specSchemaViolated d = false)
      ∧ (∀ e, verify_contract_schema d = .error e → e.isCve = true) := by
    cases hg : checkGlobals d schema_globals with
    | error e0 =>
      have hany : schema_globals.any (globalKeyBad d) = true := by
        cases hany2 : schema_globals.any (globalKeyBad d) with
        | true => rfl
        | false =>
          rw [List.any_eq_false] at hany2
          have hok : checkGlobals d schema_globals = .ok () := by
            rw [checkGlobals_ok_iff]
            simp only [List.all_eq_true, Bool.not_eq_true']
            intro p hp
            simpa using hany2 p hp
          exact absurd (hok.symm.trans hg) (by simp)
      have hverify : verify_contract_schema d = .error e0 := by
        unfold verify_contract_schema
        rw [hg]
      constructor
      · rw [hverify]
        constructor
        · intro h
          exact absurd h (by simp)
        · intro h
          simp [specSchemaViolated, hany] at h
      · intro e he
        rw [hverify] at he
        injection he with he
        obtain ⟨k, hk⟩ := checkGlobals_error d schema_globals e0 hg
        rw [← he, hk]
        rfl
    | ok u =>
      cases u
      obtain ⟨fs, hfs⟩ := functions_is_vlist d hg
      have hverify : verify_contract_schema d = checkFunctionsLoop d fs := by
        unfold verify_contract_schema
        rw [hg]
        simp only [dictLookup, hfs]
      have hwfs : fs.all (fnEntryW d) = true := by
        simp only [wellShapedContract, dictLookup, hfs] at hw
        exact hw
      have hanyg : schema_globals.any (globalKeyBad d) = false := by
        have h2 := (checkGlobals_ok_iff d schema_globals).mp hg
        simp only [List.all_eq_true, Bool.not_eq_true'] at h2
        rw [List.any_eq_false]
        intro p hp
        simpa using h2 p hp
      have hviol : specSchemaViolated d = fs.any (declaredFunctionBad d) := by
        simp [specSchemaViolated, hanyg, dictLookup, hfs]
      constructor
      · rw [hverify, hviol, checkFunctionsLoop_ok_iff d fs hwfs]
        constructor
        · intro h
          rw [List.any_eq_false]
          simp only [List.all_eq_true, Bool.not_eq_true'] at h
          intro f hf2
          simpa using h f hf2
        · intro h
          rw [List.any_eq_false] at h
          simp only [List.all_eq_true, Bool.not_eq_true']
          intro f hf2
          simpa using h f hf2
      · intro e he
        rw [hverify] at he
        exact checkFunctionsLoop_error d fs e hwfs he
  refine ⟨main.1, main.2, fun analysis e he => ?_, fun b b' => verify_flag_invariant d b b'⟩
  simp [mainValidatesFirst, he]

/-- C7 witness: the amended theorem applied at a conforming contract
and at a contract missing the spec of a declared function. -/
theorem c7_witness :
    verify_contract_schema c7goodContract = .ok ()
    ∧ specSchemaViolated c7goodContract = false
    ∧ verify_contract_schema c7missingSpecContract
        = .error (.functionNotDefined (.vstr "g"))
    ∧ SchemaErr.isCve (.functionNotDefined (.vstr "g")) = true :=
  ⟨(c7_schema_validation c7goodContract rfl).1.mpr rfl, rfl, rfl,
   (c7_schema_validation c7missingSpecContract rfl).2.1 _ rfl⟩
